import Mathlib

/-!
Shallow embedding of the shielded-wallet data store of this repository
(zcash_client_sqlite with_async / for_async variants, zcash_extras, and the
add_transaction_views migration), together with theorems settling the frozen
claims about it.

Conventions of the embedding:
  - SQLite tables are lists of row structures; byte blobs are `List Nat`;
    i64 columns are `Int`; u32 block heights are `Nat`.
  - Each write action is a function from the database state to
    `Except SqliteClientError (result × state)`; an error carries no state
    because the enclosing transaction (`transactionally`) restores the
    pre-call state on any error, exactly as the Rust code issues ROLLBACK.
  - SQLite assigns a fresh INTEGER PRIMARY KEY as max existing rowid plus one;
    `last_insert_rowid` is the connection-level register updated by INSERTs.
  - UNIQUE / PRIMARY KEY constraints declared by the schema in
    for_async/init.rs are enforced by the insert (and, for received_notes.nf,
    update) operations, producing a DbError as SQLite would.
-/

namespace LibRustZcash

/-- Error kinds of SqliteClientError / WalletMigrationError that the embedded
code can produce or that the spec names.  `DbError` stands for an error
surfaced from the underlying SQLite engine (e.g. a constraint violation). -/
inductive SqliteClientError where
  | TableNotEmpty : SqliteClientError
  | InvalidNoteId : SqliteClientError
  | DoubleSpend : SqliteClientError
  | RewindTooDeep : SqliteClientError
  | CorruptedData (msg : String) : SqliteClientError
  | DbError (msg : String) : SqliteClientError
  deriving DecidableEq

/-- NoteId from zcash_extras/src/lib.rs: a sqlite primary key value for the
sent_notes or received_notes table. -/
inductive NoteId where
  | SentNoteId (id : Int) : NoteId
  | ReceivedNoteId (id : Int) : NoteId
  deriving DecidableEq

/-- Whether a NoteId refers to a received note. -/
def NoteId.isReceived : NoteId → Bool
  | .ReceivedNoteId _ => true
  | .SentNoteId _ => false

/-- A row of the accounts table (account INTEGER PRIMARY KEY, extfvk TEXT,
address TEXT); the two TEXT columns are kept as encoded byte lists. -/
structure AccountRow where
  account : Nat
  extfvk : List Nat
  address : List Nat
  deriving DecidableEq

/-- A row of the blocks table (height INTEGER PRIMARY KEY, hash BLOB,
time INTEGER, sapling_tree BLOB). -/
structure BlockRow where
  height : Nat
  hash : List Nat
  time : Nat
  sapling_tree : List Nat
  deriving DecidableEq

/-- A row of the transactions table. -/
structure TransactionRow where
  id_tx : Int
  txid : List Nat
  created : Option Int
  block : Option Nat
  tx_index : Option Int
  expiry_height : Option Nat
  raw : Option (List Nat)
  deriving DecidableEq

/-- A row of the received_notes table.  nf and is_change are NOT NULL in the
schema, so they are plain values here; memo and spent are nullable. -/
structure ReceivedNoteRow where
  id_note : Int
  tx : Int
  output_index : Int
  account : Int
  diversifier : List Nat
  value : Int
  rcm : List Nat
  nf : List Nat
  is_change : Bool
  memo : Option (List Nat)
  spent : Option Int
  deriving DecidableEq

/-- A row of the sapling_witnesses table. -/
structure SaplingWitnessRow where
  id_witness : Int
  note : Int
  block : Nat
  witness : List Nat
  deriving DecidableEq

/-- A row of the sent_notes table. -/
structure SentNoteRow where
  id_note : Int
  tx : Int
  output_index : Int
  from_account : Int
  address : List Nat
  value : Int
  memo : Option (List Nat)
  deriving DecidableEq

/-- The wallet database state: the six tables created by init_wallet_db in
for_async/init.rs, plus the connection's last_insert_rowid register. -/
structure WalletDb where
  accounts : List AccountRow
  blocks : List BlockRow
  transactions : List TransactionRow
  received_notes : List ReceivedNoteRow
  sapling_witnesses : List SaplingWitnessRow
  sent_notes : List SentNoteRow
  last_insert_rowid : Int
  deriving DecidableEq

/-- The state of a freshly opened wallet database after init_wallet_db
(for_async/init.rs lines 11-101): all tables exist and are empty. -/
def initWalletDb : WalletDb :=
  { accounts := [], blocks := [], transactions := [], received_notes := []
  , sapling_witnesses := [], sent_notes := [], last_insert_rowid := 0 }

/-- SQLite rowid allocation for INTEGER PRIMARY KEY: one more than the
largest rowid in the table (1 for an empty table). -/
def nextId (ids : List Int) : Int := ids.foldr max 0 + 1

/-- Executable duplicate test on a list of byte blobs, used to enforce the
UNIQUE constraint on received_notes.nf. -/
def hasDup : List (List Nat) → Bool
  | [] => false
  | x :: xs => xs.contains x || hasDup xs

/-- The ShieldedOutput trait of zcash_extras/src/lib.rs, modelled as a record
of the values its seven accessors return (index, account, to-diversifier,
note value, note rcm, memo, is_change, nullifier). -/
structure ShieldedOutputData where
  index : Nat
  account : Nat
  to_diversifier : List Nat
  note_value : Nat
  note_rcm : List Nat
  memo : Option (List Nat)
  is_change : Option Bool
  nf : Option (List Nat)
  deriving DecidableEq

/-- insert_block from with_async/wallet_actions.rs lines 21-44: INSERT INTO
blocks (height, hash, time, sapling_tree); height is the PRIMARY KEY, so a
duplicate height fails with a constraint error.  The commitment tree is
taken already serialized. -/
def insert_block (db : WalletDb) (block_height : Nat) (block_hash : List Nat)
    (block_time : Nat) (encoded_tree : List Nat) :
    Except SqliteClientError (Unit × WalletDb) :=
  if db.blocks.any (fun b => b.height == block_height) then
    .error (.DbError "UNIQUE constraint failed: blocks.height")
  else
    .ok ((), { db with
      blocks := db.blocks ++ [⟨block_height, block_hash, block_time, encoded_tree⟩] })

/-- put_tx_meta from with_async/wallet_actions.rs lines 48-79: UPDATE
transactions SET block, tx_index WHERE txid; if no row was affected, INSERT
a new row and return last_insert_rowid, else SELECT the existing id_tx. -/
def put_tx_meta (db : WalletDb) (txid : List Nat) (tx_index : Int)
    (height : Nat) : Except SqliteClientError (Int × WalletDb) :=
  let updated := db.transactions.map fun t =>
    if t.txid == txid then { t with block := some height, tx_index := some tx_index } else t
  if db.transactions.countP (fun t => t.txid == txid) == 0 then
    let id := nextId (db.transactions.map (·.id_tx))
    .ok (id, { db with
      transactions := db.transactions ++
        [⟨id, txid, none, some height, some tx_index, none, none⟩]
      , last_insert_rowid := id })
  else
    match db.transactions.find? (fun t => t.txid == txid) with
    | some t => .ok (t.id_tx, { db with transactions := updated })
    | none => .error (.DbError "QueryReturnedNoRows")

/-- mark_spent from with_async/wallet_actions.rs lines 86-95: UPDATE
received_notes SET spent = tx_ref WHERE nf = nf.  No check is made that the
nullifier exists or that the note is unspent. -/
def mark_spent (db : WalletDb) (tx_ref : Int) (nf : List Nat) :
    Except SqliteClientError (Unit × WalletDb) :=
  .ok ((), { db with
    received_notes := db.received_notes.map fun r =>
      if r.nf == nf then { r with spent := some tx_ref } else r })

/-- The single UPDATE statement of put_received_note
(with_async/wallet_actions.rs lines 133-143): every field is overwritten
except nf, memo and is_change, which use IFNULL(:param, col) so that a NULL
argument keeps the stored value.  Returns the number of affected rows.  The
schema declares nf UNIQUE, so an update creating a duplicate nullifier fails
with a constraint error, as in SQLite. -/
def received_note_update (db : WalletDb) (output : ShieldedOutputData)
    (tx_ref : Int) : Except SqliteClientError (Nat × WalletDb) :=
  let oi : Int := (output.index : Int)
  let updated := db.received_notes.map fun r =>
    if r.tx == tx_ref && r.output_index == oi then
      { r with
        account := (output.account : Int)
        , diversifier := output.to_diversifier
        , value := (output.note_value : Int)
        , rcm := output.note_rcm
        , nf := (output.nf).getD r.nf
        , memo := (output.memo).or r.memo
        , is_change := (output.is_change).getD r.is_change }
    else r
  if hasDup (updated.map (·.nf)) then
    .error (.DbError "UNIQUE constraint failed: received_notes.nf")
  else
    .ok (db.received_notes.countP (fun r => r.tx == tx_ref && r.output_index == oi),
         { db with received_notes := updated })

/-- put_received_note from with_async/wallet_actions.rs lines 101-171.  The
first branch runs the UPDATE keyed on (tx, output_index); when it affects no
row the code falls through to a branch whose comment says it inserts, but
whose statement is the very same UPDATE again, after which it returns
ReceivedNoteId(last_insert_rowid).  When the first UPDATE affected a row the
existing id_note is selected and returned. -/
def put_received_note (db : WalletDb) (output : ShieldedOutputData)
    (tx_ref : Int) : Except SqliteClientError (NoteId × WalletDb) :=
  match received_note_update db output tx_ref with
  | .error e => .error e
  | .ok r1 =>
    if r1.1 == 0 then
      match received_note_update r1.2 output tx_ref with
      | .error e => .error e
      | .ok r2 => .ok (.ReceivedNoteId r2.2.last_insert_rowid, r2.2)
    else
      match r1.2.received_notes.find?
          (fun r => r.tx == tx_ref && r.output_index == (output.index : Int)) with
      | some r => .ok (.ReceivedNoteId r.id_note, r1.2)
      | none => .error (.DbError "QueryReturnedNoRows")

/-- insert_witness from with_async/wallet_actions.rs lines 175-192: INSERT
INTO sapling_witnesses (note, block, witness); the schema declares
UNIQUE (note, block). -/
def insert_witness (db : WalletDb) (note_id : Int) (witness : List Nat)
    (height : Nat) : Except SqliteClientError (Unit × WalletDb) :=
  if db.sapling_witnesses.any (fun w => w.note == note_id && w.block == height) then
    .error (.DbError "UNIQUE constraint failed: sapling_witnesses.note, sapling_witnesses.block")
  else
    let id := nextId (db.sapling_witnesses.map (·.id_witness))
    .ok ((), { db with
      sapling_witnesses := db.sapling_witnesses ++ [⟨id, note_id, height, witness⟩]
      , last_insert_rowid := id })

/-- prune_witnesses from with_async/wallet_actions.rs lines 195-203: DELETE
FROM sapling_witnesses WHERE block is less than the given height. -/
def prune_witnesses (db : WalletDb) (below_height : Nat) :
    Except SqliteClientError (Unit × WalletDb) :=
  .ok ((), { db with
    sapling_witnesses := db.sapling_witnesses.filter fun w =>
      !(w.block < below_height : Bool) })

/-- update_expired_notes from with_async/wallet_actions.rs lines 207-220:
UPDATE received_notes SET spent = NULL WHERE EXISTS an unmined transaction
row equal to the spent pointer whose expiry_height is below the given
height (a NULL expiry_height never compares below). -/
def update_expired_notes (db : WalletDb) (height : Nat) :
    Except SqliteClientError (Unit × WalletDb) :=
  .ok ((), { db with
    received_notes := db.received_notes.map fun r =>
      if db.transactions.any fun t =>
          some t.id_tx == r.spent && t.block == none &&
            (match t.expiry_height with | some e => e < height | none => false) then
        { r with spent := none }
      else r })

/-- The Transaction values handed to put_tx_data and store_sent_tx, reduced
to the fields the embedded code reads: txid, expiry_height, the serialized
raw bytes, and the nullifiers of its shielded spends. -/
structure TransactionM where
  txid : List Nat
  expiry_height : Nat
  raw : List Nat
  shielded_spends : List (List Nat)
  deriving DecidableEq

/-- put_tx_data from with_async/wallet_actions.rs lines 223-263: UPDATE
transactions SET expiry_height, raw WHERE txid; if no row was affected,
INSERT (txid, created, expiry_height, raw) and return last_insert_rowid,
else SELECT the existing id_tx.  The created binding is truncated in the
source (created_at followed by a stray dot); per the spec design note it is
bound as the given timestamp or NULL. -/
def put_tx_data (db : WalletDb) (tx : TransactionM) (created_at : Option Int) :
    Except SqliteClientError (Int × WalletDb) :=
  let updated := db.transactions.map fun t =>
    if t.txid == tx.txid then
      { t with expiry_height := some tx.expiry_height, raw := some tx.raw } else t
  if db.transactions.countP (fun t => t.txid == tx.txid) == 0 then
    let id := nextId (db.transactions.map (·.id_tx))
    .ok (id, { db with
      transactions := db.transactions ++
        [⟨id, tx.txid, created_at, none, none, some tx.expiry_height, some tx.raw⟩]
      , last_insert_rowid := id })
  else
    match db.transactions.find? (fun t => t.txid == tx.txid) with
    | some t => .ok (t.id_tx, { db with transactions := updated })
    | none => .error (.DbError "QueryReturnedNoRows")

/-- Modelled from the spec: Amount::from_u64 of zcash_primitives (external
to src/) accepts a note value iff it is within range; the spec bounds note
values by 2^63 (section 3, Received Note). -/
def amount_from_u64_valid (v : Nat) : Bool := v ≤ 2 ^ 63

/-- insert_sent_note from with_async/wallet_actions.rs lines 318-344: INSERT
INTO sent_notes (tx, output_index, from_account, address, value, memo); the
schema declares UNIQUE (tx, output_index). -/
def insert_sent_note (db : WalletDb) (tx_ref : Int) (output_index : Nat)
    (account : Nat) (to_encoded : List Nat) (value : Int)
    (memo : Option (List Nat)) : Except SqliteClientError (Unit × WalletDb) :=
  if db.sent_notes.any
      (fun s => s.tx == tx_ref && s.output_index == (output_index : Int)) then
    .error (.DbError "UNIQUE constraint failed: sent_notes.tx, sent_notes.output_index")
  else
    let id := nextId (db.sent_notes.map (·.id_note))
    .ok ((), { db with
      sent_notes := db.sent_notes ++
        [⟨id, tx_ref, (output_index : Int), (account : Int), to_encoded, value, memo⟩]
      , last_insert_rowid := id })

/-- DecryptedOutput from zcash_client_backend, reduced to the fields the
embedded code reads; to_address is the payment address already encoded
(encode_payment_address is external to src/). -/
structure DecryptedOutputM where
  index : Nat
  account : Nat
  to_diversifier : List Nat
  to_address : List Nat
  note_value : Nat
  note_rcm : List Nat
  memo : List Nat
  outgoing : Bool
  deriving DecidableEq

/-- The ShieldedOutput trait view of a DecryptedOutput
(zcash_extras/src/lib.rs lines 243-265): memo is Some, is_change and
nullifier are None. -/
def DecryptedOutputM.toShielded (o : DecryptedOutputM) : ShieldedOutputData :=
  { index := o.index, account := o.account, to_diversifier := o.to_diversifier
  , note_value := o.note_value, note_rcm := o.note_rcm
  , memo := some o.memo, is_change := none, nf := none }

/-- put_sent_note from with_async/wallet_actions.rs lines 266-308: UPDATE
sent_notes SET from_account, address, value, memo WHERE tx AND output_index;
if no row was affected, check the note value (Amount::from_u64, error
CorruptedData) and insert a new sent note. -/
def put_sent_note (db : WalletDb) (output : DecryptedOutputM) (tx_ref : Int) :
    Except SqliteClientError (Unit × WalletDb) :=
  let updated := db.sent_notes.map fun s =>
    if s.tx == tx_ref && s.output_index == (output.index : Int) then
      { s with from_account := (output.account : Int), address := output.to_address
             , value := (output.note_value : Int), memo := some output.memo }
    else s
  if db.sent_notes.countP
      (fun s => s.tx == tx_ref && s.output_index == (output.index : Int)) == 0 then
    if amount_from_u64_valid output.note_value then
      insert_sent_note db tx_ref output.index output.account output.to_address
        (output.note_value : Int) (some output.memo)
    else
      .error (.CorruptedData "Note value invalid.")
  else
    .ok ((), { db with sent_notes := updated })

/-- WalletShieldedOutput (with nullifier) from zcash_client_backend, reduced
to the fields the embedded code reads, including the incremental witness
computed at the note's position (kept serialized). -/
structure WalletShieldedOutputM where
  index : Nat
  account : Nat
  to_diversifier : List Nat
  note_value : Nat
  note_rcm : List Nat
  is_change : Bool
  nf : List Nat
  witness : List Nat
  deriving DecidableEq

/-- The ShieldedOutput trait view of a WalletShieldedOutput
(zcash_extras/src/lib.rs lines 218-241): memo is None, is_change and
nullifier are Some. -/
def WalletShieldedOutputM.toShielded (o : WalletShieldedOutputM) :
    ShieldedOutputData :=
  { index := o.index, account := o.account, to_diversifier := o.to_diversifier
  , note_value := o.note_value, note_rcm := o.note_rcm
  , memo := none, is_change := some o.is_change, nf := some o.nf }

/-- WalletTx from zcash_client_backend: txid, in-block index, compact spends
(nullifiers) and decrypted shielded outputs. -/
structure WalletTxM where
  txid : List Nat
  index : Int
  shielded_spends : List (List Nat)
  shielded_outputs : List WalletShieldedOutputM
  deriving DecidableEq

/-- PrunedBlock from zcash_client_backend: the scanner's output consumed by
advance_by_block; the commitment tree is kept serialized. -/
structure PrunedBlockM where
  block_height : Nat
  block_hash : List Nat
  block_time : Nat
  commitment_tree : List Nat
  transactions : List WalletTxM
  deriving DecidableEq

/-- transactionally from for_async/mod.rs lines 229-263 (identical in
with_async/mod.rs lines 342-377): BEGIN IMMEDIATE, run the body, COMMIT on
success; on error ROLLBACK restores the pre-call state and the error is
returned (a rollback failure panics and is outside this model). -/
def transactionally {α : Type} (db : WalletDb)
    (body : WalletDb → Except SqliteClientError (α × WalletDb)) :
    Except SqliteClientError α × WalletDb :=
  match body db with
  | .ok p => (.ok p.1, p.2)
  | .error e => (.error e, db)

/-- The mark_spent loop of advance_by_block (for_async/mod.rs lines 386-389)
and of store_sent_tx (lines 461-463): mark every listed nullifier spent in
the given transaction row. -/
def mark_spent_loop (db : WalletDb) (tx_ref : Int) :
    List (List Nat) → Except SqliteClientError (Unit × WalletDb)
  | [] => .ok ((), db)
  | nf :: rest =>
    match mark_spent db tx_ref nf with
    | .error e => .error e
    | .ok y => mark_spent_loop y.2 tx_ref rest

/-- The shielded-output loop of advance_by_block (for_async/mod.rs lines
391-396): put each received note and record (note id, witness) in
new_witnesses. -/
def put_outputs_loop (db : WalletDb) (tx_ref : Int)
    (nw : List (NoteId × List Nat)) : List WalletShieldedOutputM →
    Except SqliteClientError (List (NoteId × List Nat) × WalletDb)
  | [] => .ok (nw, db)
  | o :: rest =>
    match put_received_note db o.toShielded tx_ref with
    | .error e => .error e
    | .ok y => put_outputs_loop y.2 tx_ref (nw ++ [(y.1, o.witness)]) rest

/-- The transaction loop of advance_by_block (for_async/mod.rs lines
383-397): put_tx_meta, mark the spends, put the outputs. -/
def scan_txs_loop (db : WalletDb) (height : Nat)
    (nw : List (NoteId × List Nat)) : List WalletTxM →
    Except SqliteClientError (List (NoteId × List Nat) × WalletDb)
  | [] => .ok (nw, db)
  | tx :: rest =>
    match put_tx_meta db tx.txid tx.index height with
    | .error e => .error e
    | .ok r1 =>
      match mark_spent_loop r1.2 r1.1 tx.shielded_spends with
      | .error e => .error e
      | .ok r2 =>
        match put_outputs_loop r2.2 r1.1 nw tx.shielded_outputs with
        | .error e => .error e
        | .ok r3 => scan_txs_loop r3.2 height r3.1 rest

/-- The witness loop of advance_by_block (for_async/mod.rs lines 399-407):
insert each witness of updated_witnesses chained with new_witnesses at the
block height; a note ref that is not a ReceivedNoteId aborts with
InvalidNoteId. -/
def insert_witnesses_loop (db : WalletDb) (height : Nat) :
    List (NoteId × List Nat) → Except SqliteClientError (Unit × WalletDb)
  | [] => .ok ((), db)
  | (.ReceivedNoteId rnid, w) :: rest =>
    match insert_witness db rnid w height with
    | .error e => .error e
    | .ok y => insert_witnesses_loop y.2 height rest
  | (.SentNoteId _, _) :: _ => .error .InvalidNoteId

/-- The transaction body of advance_by_block (for_async/mod.rs lines
371-421, identical in with_async/mod.rs lines 479-529): insert the block,
scan the transactions, insert the witnesses, prune witnesses below
height minus 100 (0 when the height is below 100), release notes spent by
now-expired unmined transactions, and return new_witnesses. -/
def advance_by_block_body (db : WalletDb) (block : PrunedBlockM)
    (updated_witnesses : List (NoteId × List Nat)) :
    Except SqliteClientError (List (NoteId × List Nat) × WalletDb) :=
  match insert_block db block.block_height block.block_hash block.block_time
      block.commitment_tree with
  | .error e => .error e
  | .ok r1 =>
    match scan_txs_loop r1.2 block.block_height [] block.transactions with
    | .error e => .error e
    | .ok r2 =>
      match insert_witnesses_loop r2.2 block.block_height
          (updated_witnesses ++ r2.1) with
      | .error e => .error e
      | .ok r3 =>
        let below_height := if block.block_height < 100 then 0
          else block.block_height - 100
        match prune_witnesses r3.2 below_height with
        | .error e => .error e
        | .ok r4 =>
          match update_expired_notes r4.2 block.block_height with
          | .error e => .error e
          | .ok r5 => .ok (r2.1, r5.2)

/-- advance_by_block of WalletWrite for DataConnStmtCacheAsync
(for_async/mod.rs lines 365-422): the body runs inside transactionally, so
on any error the state reverts to the pre-call state. -/
def advance_by_block (db : WalletDb) (block : PrunedBlockM)
    (updated_witnesses : List (NoteId × List Nat)) :
    Except SqliteClientError (List (NoteId × List Nat)) × WalletDb :=
  transactionally db fun db0 => advance_by_block_body db0 block updated_witnesses

/-- The output loop of store_received_tx (for_async/mod.rs lines 432-438):
outgoing outputs become sent notes, the rest received notes. -/
def store_outputs_loop (db : WalletDb) (tx_ref : Int) :
    List DecryptedOutputM → Except SqliteClientError (Unit × WalletDb)
  | [] => .ok ((), db)
  | o :: rest =>
    if o.outgoing then
      match put_sent_note db o tx_ref with
      | .error e => .error e
      | .ok y => store_outputs_loop y.2 tx_ref rest
    else
      match put_received_note db o.toShielded tx_ref with
      | .error e => .error e
      | .ok y => store_outputs_loop y.2 tx_ref rest

/-- store_received_tx of WalletWrite for DataConnStmtCacheAsync
(for_async/mod.rs lines 424-442): put_tx_data with no creation time, then
store every output; all inside transactionally. -/
def store_received_tx (db : WalletDb) (tx : TransactionM)
    (outputs : List DecryptedOutputM) :
    Except SqliteClientError Int × WalletDb :=
  transactionally db fun db0 =>
    match put_tx_data db0 tx none with
    | .error e => .error e
    | .ok r1 =>
      match store_outputs_loop r1.2 r1.1 outputs with
      | .error e => .error e
      | .ok r2 => .ok (r1.1, r2.2)

/-- SentTransaction from zcash_client_backend, reduced to the fields the
embedded code reads; the recipient address is kept already encoded. -/
structure SentTransactionM where
  tx : TransactionM
  created : Int
  output_index : Nat
  account : Nat
  recipient_address : List Nat
  value : Int
  memo : Option (List Nat)
  deriving DecidableEq

/-- store_sent_tx of WalletWrite for DataConnStmtCacheAsync
(for_async/mod.rs lines 444-478): put_tx_data with the creation time, mark
every shielded spend of the transaction spent, insert the sent note; all
inside transactionally. -/
def store_sent_tx (db : WalletDb) (st : SentTransactionM) :
    Except SqliteClientError Int × WalletDb :=
  transactionally db fun db0 =>
    match put_tx_data db0 st.tx (some st.created) with
    | .error e => .error e
    | .ok r1 =>
      match mark_spent_loop r1.2 r1.1 st.tx.shielded_spends with
      | .error e => .error e
      | .ok r2 =>
        match insert_sent_note r2.2 r1.1 st.output_index st.account
            st.recipient_address st.value st.memo with
        | .error e => .error e
        | .ok r3 => .ok (r1.1, r3.2)

/-- Modelled from the spec: wallet::block_height_extrema is not under src/
(only its callers are); it returns the minimum and maximum stored block
heights, or None when no block is stored. -/
def wallet_block_height_extrema (db : WalletDb) : Option (Nat × Nat) :=
  match db.blocks.map (·.height) with
  | [] => none
  | h :: t => some (t.foldr min h, t.foldr max h)

/-- Modelled from the spec: wallet::get_block_hash is not under src/; it
returns the stored hash of the block at the given height, if any. -/
def wallet_get_block_hash (db : WalletDb) (height : Nat) : Option (List Nat) :=
  (db.blocks.find? (fun b => b.height == height)).map (·.hash)

/-- Modelled from the spec: wallet::rewind_to_height is not under src/ (only
its for_async and with_async callers are).  Spec section 4.5: delete every
block of height above h and every witness above h; clear block, tx_index and
expiry_height of transactions mined above h; release any received note whose
spent pointer refers to a transaction that is no longer mined; fail with
RewindTooDeep when h is below the minimum stored height. -/
def rewind_to_height (db : WalletDb) (h : Nat) :
    Except SqliteClientError Unit × WalletDb :=
  match wallet_block_height_extrema db with
  | none => (.ok (), db)
  | some (min_height, _) =>
    if h < min_height then (.error .RewindTooDeep, db)
    else
      (.ok (), { db with
        blocks := db.blocks.filter fun b => !(h < b.height : Bool)
        , sapling_witnesses := db.sapling_witnesses.filter fun w =>
            !(h < w.block : Bool)
        , transactions := db.transactions.map fun t =>
            if (match t.block with | some b => h < b | none => false : Bool) then
              { t with block := none, tx_index := none, expiry_height := none }
            else t
        , received_notes := db.received_notes.map fun r =>
            if db.transactions.any fun t =>
                some t.id_tx == r.spent &&
                  (match t.block with | some b => h < b | none => false : Bool) then
              { r with spent := none }
            else r })

/-- Modelled from the spec: ANCHOR_OFFSET of
zcash_client_backend::data_api::wallet is not under src/; the spec fixes it
at 10. -/
def ANCHOR_OFFSET : Nat := 10

/-- get_target_and_anchor_heights, the default method of WalletRead in
zcash_extras/src/lib.rs lines 51-68 (textually identical in
with_async/mod.rs lines 37-54): target is the maximum stored height plus
one; the anchor is ANCHOR_OFFSET back from the target (u32 saturating
subtraction, matched by Nat truncated subtraction) but never before the
minimum stored height. -/
def get_target_and_anchor_heights (db : WalletDb) : Option (Nat × Nat) :=
  (wallet_block_height_extrema db).map fun p =>
    let target_height := p.2 + 1
    (target_height, max (target_height - ANCHOR_OFFSET) p.1)

/-- The account insertion loop of init_accounts_table (for_async/init.rs
lines 123-140): each enumerated key is inserted with its encoded ExtFVK and
derived default address (encode_extended_full_viewing_key and
address_from_extfvk are cryptographic operations external to src/, passed
here as parameters); the explicit primary key makes last_insert_rowid the
account index.  The loop starts from an empty table with distinct indices,
so no primary-key conflict can arise. -/
def insert_accounts_loop {K : Type} (encode derive : K → List Nat)
    (db : WalletDb) : List (Nat × K) → WalletDb
  | [] => db
  | (i, k) :: rest =>
    insert_accounts_loop encode derive
      { db with
        accounts := db.accounts ++ [⟨i, encode k, derive k⟩]
        last_insert_rowid := (i : Int) } rest

/-- init_accounts_table from for_async/init.rs lines 103-146: when the
accounts table is non-empty, fail with TableNotEmpty and change nothing;
otherwise insert account i with the i-th key inside BEGIN IMMEDIATE /
COMMIT. -/
def init_accounts_table {K : Type} (encode derive : K → List Nat)
    (db : WalletDb) (extfvks : List K) :
    Except SqliteClientError Unit × WalletDb :=
  if !db.accounts.isEmpty then (.error .TableNotEmpty, db)
  else (.ok (), insert_accounts_loop encode derive db extfvks.enum)

/-- init_blocks_table from for_async/init.rs lines 148-182: when any block
row exists, fail with TableNotEmpty and change nothing; otherwise insert
the single checkpoint block row. -/
def init_blocks_table (db : WalletDb) (height : Nat) (hash : List Nat)
    (time : Nat) (sapling_tree : List Nat) :
    Except SqliteClientError Unit × WalletDb :=
  if !db.blocks.isEmpty then (.error .TableNotEmpty, db)
  else
    (.ok (), { db with
               blocks := [⟨height, hash, time, sapling_tree⟩]
               last_insert_rowid := (height : Int) })

/-- block_height_extrema of WalletRead for WalletDbAsync in
for_async/mod.rs lines 70-79: the call is offloaded to a blocking worker
(async_blocking), which locks the database and calls
wallet::block_height_extrema; the suspension is invisible to the result. -/
def forAsync_walletDb_block_height_extrema (db : WalletDb) :
    Except SqliteClientError (Option (Nat × Nat)) :=
  .ok (wallet_block_height_extrema db)

/-- block_height_extrema of WalletRead for DataConnStmtCacheAsync in
for_async/mod.rs lines 272-276: it delegates to the wallet_db field. -/
def forAsync_dataConn_block_height_extrema (db : WalletDb) :
    Except SqliteClientError (Option (Nat × Nat)) :=
  forAsync_walletDb_block_height_extrema db

/-- get_block_hash of WalletRead for WalletDbAsync in for_async/mod.rs
lines 81-91. -/
def forAsync_walletDb_get_block_hash (db : WalletDb) (height : Nat) :
    Except SqliteClientError (Option (List Nat)) :=
  .ok (wallet_get_block_hash db height)

/-- get_block_hash of WalletRead for DataConnStmtCacheAsync in
for_async/mod.rs lines 278-283: it delegates to the wallet_db field. -/
def forAsync_dataConn_get_block_hash (db : WalletDb) (height : Nat) :
    Except SqliteClientError (Option (List Nat)) :=
  forAsync_walletDb_get_block_hash db height

/-- block_height_extrema of WalletRead for WalletDbAsync in
with_async/mod.rs lines 237-242: lock and call wallet::block_height_extrema
directly inside the async function. -/
def withAsync_walletDb_block_height_extrema (db : WalletDb) :
    Except SqliteClientError (Option (Nat × Nat)) :=
  .ok (wallet_block_height_extrema db)

/-- block_height_extrema of WalletRead for DataConnStmtCacheAsync in
with_async/mod.rs lines 385-389: the body is self.block_height_extrema()
awaited, and DataConnStmtCacheAsync has no inherent method of that name, so
the call resolves to this very trait method and recurses into itself.  The
Nat argument bounds the number of call steps the model is willing to unfold;
none means the call has not returned within that bound. -/
def withAsync_dataConn_block_height_extrema :
    Nat → WalletDb → Option (Except SqliteClientError (Option (Nat × Nat)))
  | 0, _ => none
  | n + 1, db => withAsync_dataConn_block_height_extrema n db

/-- get_block_hash of WalletRead for DataConnStmtCacheAsync in
with_async/mod.rs lines 391-396: like block_height_extrema, the body calls
the same trait method on the same receiver and recurses into itself. -/
def withAsync_dataConn_get_block_hash :
    Nat → WalletDb → Nat → Option (Except SqliteClientError (Option (List Nat)))
  | 0, _, _ => none
  | n + 1, db, height => withAsync_dataConn_get_block_hash n db height

/-- A row of the utxos table as read by the add_transaction_views migration
(prevout_txid, prevout_idx, value_zat). -/
structure UtxoRow where
  prevout_txid : List Nat
  prevout_idx : Nat
  value_zat : Int
  deriving DecidableEq

/-- A transparent outpoint (prevout hash and index) of a parsed
transaction. -/
structure OutPointM where
  hash : List Nat
  n : Nat
  deriving DecidableEq

/-- A stored transaction in parsed form, reduced to what fee computation
reads: the transparent inputs (outpoints) and the transparent output
values.  Transaction::read and the BranchId selection are external to src/,
so raw bytes are kept in already-parsed form; rows whose bytes fail to
parse are outside this model. -/
structure TxParsed where
  vin : List OutPointM
  vout : List Int
  deriving DecidableEq

/-- Modelled from the spec: Amount::from_i64 of zcash_primitives (external
to src/) accepts an amount iff it is within range; the spec bounds values
by 2^63. -/
def amount_from_i64_valid (i : Int) : Bool := -(2 ^ 63) ≤ i && i ≤ 2 ^ 63

/-- The UTXO resolution closure of the migration
(add_transaction_views.rs lines 78-102): SELECT value_zat FROM utxos WHERE
prevout_txid AND prevout_idx (first row); a missing row is CorruptedData
(unable to find UTXO), an out-of-range amount is CorruptedData. -/
def find_utxo_value (utxos : List UtxoRow) (op : OutPointM) :
    Except SqliteClientError Int :=
  match utxos.find? (fun u => u.prevout_txid == op.hash && u.prevout_idx == op.n) with
  | none => .error (.CorruptedData "Unable to find UTXO corresponding to outpoint")
  | some u =>
    if amount_from_i64_valid u.value_zat then .ok u.value_zat
    else .error (.CorruptedData "UTXO amount out of range in outpoint")

/-- The sum of the resolved transparent input values, in input order;
the first resolution failure aborts. -/
def sum_input_values (resolve : OutPointM → Except SqliteClientError Int) :
    List OutPointM → Except SqliteClientError Int
  | [] => .ok 0
  | op :: rest =>
    match resolve op with
    | .error e => .error e
    | .ok v =>
      match sum_input_values resolve rest with
      | .error e => .error e
      | .ok s => .ok (v + s)

/-- Modelled from the spec: Transaction::fee_paid of zcash_primitives
(external to src/) computes the sum of the transparent input values, each
resolved by the given lookup, minus the sum of the transparent output
values (spec section 6, Migrations (b), and invariant 5). -/
def fee_paid (resolve : OutPointM → Except SqliteClientError Int)
    (tx : TxParsed) : Except SqliteClientError Int :=
  match sum_input_values resolve tx.vin with
  | .error e => .error e
  | .ok s => .ok (s - tx.vout.foldr (· + ·) 0)

/-- A row of the transactions table as the migration reads it: id_tx, the
optional raw bytes (kept parsed), the nullable mined-height column block
(NULL for a transaction not yet mined, as inserted by put_tx_data), and the
fee column the migration fills. -/
structure MigTxRow where
  id_tx : Int
  raw : Option TxParsed
  block : Option Nat
  fee : Option Int
  deriving DecidableEq

/-- The fee backfill loop of the migration (add_transaction_views.rs lines
59-106).  For every row the mined height is read as a non-nullable u32
(line 63, before raw is examined), so a NULL block column aborts the
migration with the column-type error the sqlite driver raises; after that,
every row whose raw bytes are present gets fee set to the fee_paid of its
parsed transaction, resolving inputs through the utxos table, and
metadata-only rows are left alone. -/
def backfill_fees (utxos : List UtxoRow) :
    List MigTxRow → Except SqliteClientError (List MigTxRow)
  | [] => .ok []
  | row :: rest =>
    match row.block with
    | none => .error (.DbError "InvalidColumnType: transactions.block is NULL")
    | some _ =>
      match row.raw with
      | none =>
        match backfill_fees utxos rest with
        | .error e => .error e
        | .ok r => .ok (row :: r)
      | some tx =>
        match fee_paid (find_utxo_value utxos) tx with
        | .error e => .error e
        | .ok f =>
          match backfill_fees utxos rest with
          | .error e => .error e
          | .ok r => .ok ({ row with fee := some f } :: r)

/-- The 512-byte no-memo marker: 0xF6 followed by 511 zero bytes, exactly
the blob literal of add_transaction_views.rs lines 108-112. -/
def memoPattern : List Nat := 0xF6 :: List.replicate 511 0

/-- The memo canonicalization of the migration: UPDATE ... SET memo = NULL
WHERE memo equals the 512-byte marker; any other value is untouched. -/
def canonicalizeMemo (m : Option (List Nat)) : Option (List Nat) :=
  if m == some memoPattern then none else m

/-- The database state the add_transaction_views migration operates on:
the transactions rows it reads and writes, the utxos table it resolves
against, and the two note tables whose memos it canonicalizes. -/
structure MigDb where
  transactions : List MigTxRow
  utxos : List UtxoRow
  sent_notes : List SentNoteRow
  received_notes : List ReceivedNoteRow
  deriving DecidableEq

/-- Migration::up of add_transaction_views.rs lines 47-207: add the fee
column and backfill it from the raw bytes and the utxos table, then
canonicalize the no-memo marker to NULL in sent_notes and received_notes
(the view creation adds no rows).  The enclosing schema transaction makes
a failure leave the previous state, so an error carries no state. -/
def add_transaction_views_up (db : MigDb) :
    Except SqliteClientError MigDb :=
  match backfill_fees db.utxos db.transactions with
  | .error e => .error e
  | .ok txs =>
    .ok { db with
          transactions := txs
          sent_notes := db.sent_notes.map fun s =>
            { s with memo := canonicalizeMemo s.memo }
          received_notes := db.received_notes.map fun r =>
            { r with memo := canonicalizeMemo r.memo } }

/-- The wallet states reachable from a freshly initialized database by the
public write operations of the for_async facade: advance_by_block,
store_received_tx, store_sent_tx and rewind_to_height (each taken with the
state it leaves behind, which on error is the unchanged pre-call state). -/
inductive Reachable : WalletDb → Prop where
  | init : Reachable initWalletDb
  | advance (s : WalletDb) (b : PrunedBlockM) (uw : List (NoteId × List Nat)) :
      Reachable s → Reachable (advance_by_block s b uw).2
  | recv (s : WalletDb) (tx : TransactionM) (outs : List DecryptedOutputM) :
      Reachable s → Reachable (store_received_tx s tx outs).2
  | sent (s : WalletDb) (st : SentTransactionM) :
      Reachable s → Reachable (store_sent_tx s st).2
  | rewind (s : WalletDb) (h : Nat) :
      Reachable s → Reachable (rewind_to_height s h).2

/-- Concrete shielded output used to exhibit the put_received_note miss
branch. -/
def c1out : ShieldedOutputData :=
  { index := 0, account := 3, to_diversifier := [1, 2], note_value := 5
  , note_rcm := [4], memo := some [7], is_change := some false, nf := some [9] }

/-- Concrete wallet state whose received_notes table is empty but whose
connection register last_insert_rowid is 42 from an unrelated insert. -/
def c1db : WalletDb :=
  { accounts := [⟨0, [1], [2]⟩], blocks := [⟨1, [3], 0, []⟩]
  , transactions := [⟨1, [5], none, some 1, some 0, none, none⟩]
  , received_notes := [], sapling_witnesses := [], sent_notes := []
  , last_insert_rowid := 42 }

/-- Concrete state with one received note of nullifier [9], used to witness
C10 with the distinct nullifier [8]. -/
def c10db : WalletDb :=
  { initWalletDb with
    received_notes :=
      [⟨1, 1, 0, 0, [1], 5, [2], [9], false, none, none⟩] }

/-- Concrete state with blocks at heights 7 and 3, used to witness C4. -/
def c4db : WalletDb :=
  { initWalletDb with blocks := [⟨7, [1], 0, []⟩, ⟨3, [2], 0, []⟩] }

/-- Decidable equality for Except results, so that concrete evaluations of
the embedded operations can be settled by decide. -/
instance instDecEqExcept {ε α : Type} [DecidableEq ε] [DecidableEq α] :
    DecidableEq (Except ε α)
  | .ok x, .ok y =>
    if h : x = y then .isTrue (by rw [h]) else .isFalse (by simp [h])
  | .ok _, .error _ => .isFalse (by simp)
  | .error _, .ok _ => .isFalse (by simp)
  | .error e, .error f =>
    if h : e = f then .isTrue (by rw [h]) else .isFalse (by simp [h])

/-- Concrete state with one block at height 5, used to contrast the two
facade variants. -/
def c9db : WalletDb :=
  { initWalletDb with blocks := [⟨5, [1], 0, []⟩] }

/-- Concrete non-empty states used to witness the TableNotEmpty branches of
C7. -/
def c7dbAcc : WalletDb :=
  { initWalletDb with accounts := [⟨0, [1], [2]⟩] }

/-- Concrete state with one block, for the blocks TableNotEmpty branch of
C7. -/
def c7dbBlk : WalletDb :=
  { initWalletDb with blocks := [⟨9, [1], 2, [3]⟩] }

/-- Concrete state with a block already stored at height 5, used for the C2
counterexample. -/
def c2db : WalletDb :=
  { initWalletDb with blocks := [⟨5, [1], 0, []⟩] }

/-- Concrete pruned block also at height 5 (so the block insert violates
the height PRIMARY KEY before the witness loop is reached). -/
def c2blk : PrunedBlockM :=
  { block_height := 5, block_hash := [2], block_time := 7
  , commitment_tree := [], transactions := [] }

/-- Concrete pruned block at the fresh height 1 with no transactions, used
to witness the InvalidNoteId branch of C2. -/
def c2blkFresh : PrunedBlockM :=
  { block_height := 1, block_hash := [2], block_time := 7
  , commitment_tree := [], transactions := [] }

/-- Concrete state whose single received note (nullifier [3, 3]) is already
marked spent by transaction row 7. -/
def c3db : WalletDb :=
  { initWalletDb with
    received_notes :=
      [⟨1, 7, 0, 0, [], 5, [], [3, 3], false, none, some 7⟩] }

/-- Concrete pruned block whose only transaction carries a compact spend of
the already-spent nullifier [3, 3]. -/
def c3blk : PrunedBlockM :=
  { block_height := 2, block_hash := [9], block_time := 1
  , commitment_tree := []
  , transactions :=
      [{ txid := [4], index := 0, shielded_spends := [[3, 3]]
       , shielded_outputs := [] }] }

/-- Concrete single-note state for the C3 witness (nullifier [9], already
spent by row 4). -/
def c3db2 : WalletDb :=
  { initWalletDb with
    received_notes :=
      [⟨1, 4, 0, 0, [], 5, [], [9], false, none, some 4⟩] }

/-- Concrete migration input: one sent note carrying exactly the 512-byte
marker and one received note carrying the one-byte memo [0x61]. -/
def c5db : MigDb :=
  { transactions := [], utxos := []
  , sent_notes := [⟨1, 0, 0, 0, [], 2, some memoPattern⟩]
  , received_notes := [⟨1, 0, 0, 0, [], 2, [], [7], false, some [0x61], none⟩] }

/-- The expected output of the migration on c5db: the marker memo became
NULL, the other memo is untouched. -/
def c5dbAfter : MigDb :=
  { transactions := [], utxos := []
  , sent_notes := [⟨1, 0, 0, 0, [], 2, none⟩]
  , received_notes := [⟨1, 0, 0, 0, [], 2, [], [7], false, some [0x61], none⟩] }

/-- The S5 scenario input: one stored transaction whose parsed raw bytes
spend the known UTXO of 1,400,000,000 zatoshi through one transparent
input and produce one transparent output of 1,100,000,000. -/
def c6db : MigDb :=
  { transactions := [⟨0, some ⟨[⟨[1], 1⟩], [1100000000]⟩, some 0, none⟩]
  , utxos := [⟨[1], 1, 1400000000⟩]
  , sent_notes := [], received_notes := [] }

/-- The expected S5 output: the fee column backfilled to 300,000,000. -/
def c6dbAfter : MigDb :=
  { transactions := [⟨0, some ⟨[⟨[1], 1⟩], [1100000000]⟩, some 0, some 300000000⟩]
  , utxos := [⟨[1], 1, 1400000000⟩]
  , sent_notes := [], received_notes := [] }

/-- A migration input whose only (mined) transaction spends an outpoint
absent from the utxos table. -/
def c6dbMissing : MigDb :=
  { transactions := [⟨0, some ⟨[⟨[9], 0⟩], []⟩, some 0, none⟩]
  , utxos := [], sent_notes := [], received_notes := [] }

/-- A migration input with one unmined transaction: raw bytes present, an
input whose UTXO is absent from the utxos table, and a NULL block column
(the shape put_tx_data inserts for a not-yet-mined transaction). -/
def c6dbNullBlock : MigDb :=
  { transactions := [⟨0, some ⟨[⟨[9], 0⟩], []⟩, none, none⟩]
  , utxos := [], sent_notes := [], received_notes := [] }

/-! ### Helper lemmas -/

/-- The received-note UPDATE on an empty received_notes table affects no row
and changes nothing. -/
lemma received_note_update_empty (db : WalletDb) (o : ShieldedOutputData)
    (t : Int) (h : db.received_notes = []) :
    received_note_update db o t = .ok (0, db) := by
  unfold received_note_update
  rw [h]
  simp [hasDup]
  rw [← h]

/-- put_received_note on a wallet state with an empty received_notes table
inserts nothing: it returns the connection's stale last_insert_rowid and
the unchanged state, because the miss branch of the source runs the UPDATE
a second time instead of an INSERT. -/
lemma put_received_note_empty (db : WalletDb) (o : ShieldedOutputData)
    (t : Int) (h : db.received_notes = []) :
    put_received_note db o t = .ok (.ReceivedNoteId db.last_insert_rowid, db) := by
  unfold put_received_note
  simp [received_note_update_empty db o t h]

/-- mark_spent of a nullifier that no received-note row carries is Ok and
leaves the state unchanged. -/
lemma mark_spent_unknown_nf (db : WalletDb) (tx_ref : Int) (nf : List Nat)
    (h : ∀ r ∈ db.received_notes, r.nf ≠ nf) :
    mark_spent db tx_ref nf = .ok ((), db) := by
  unfold mark_spent
  have hmap : (db.received_notes.map fun r =>
      if r.nf == nf then { r with spent := some tx_ref } else r) =
      db.received_notes := by
    have hcg : ∀ r ∈ db.received_notes,
        (if r.nf == nf then { r with spent := some tx_ref } else r) = r := by
      intro r hr
      simp [h r hr]
    rw [List.map_congr_left hcg]
    exact List.map_id db.received_notes
  rw [hmap]

/-- When the transaction body fails, transactionally rolls back: the error
is surfaced and the state is the pre-call state. -/
lemma transactionally_error {α : Type} (db : WalletDb)
    (body : WalletDb → Except SqliteClientError (α × WalletDb))
    (e : SqliteClientError) (h : body db = .error e) :
    transactionally db body = (.error e, db) := by
  unfold transactionally
  rw [h]

/-- When the transaction body succeeds, transactionally commits its result
state. -/
lemma transactionally_ok {α : Type} (db : WalletDb)
    (body : WalletDb → Except SqliteClientError (α × WalletDb))
    (p : α × WalletDb) (h : body db = .ok p) :
    transactionally db body = (.ok p.1, p.2) := by
  unfold transactionally
  rw [h]

/-! ### Claim C1 -/

/-- C1: put_received_note is claimed to be an upsert on (tx, output_index)
that inserts a new row when none exists and returns that row's NoteId.  The
code's miss branch instead repeats the UPDATE statement, so on any state
with no matching row nothing is inserted, the state is unchanged, and the
returned NoteId is the stale last_insert_rowid of the connection, which
identifies no row with that key.  Evaluated generally over every state with
an empty received_notes table, and concretely at c1db where the bogus
returned id is 42. -/
theorem C1_put_received_note_never_inserts :
    (∀ (db : WalletDb) (o : ShieldedOutputData) (t : Int),
      db.received_notes = [] →
        put_received_note db o t = .ok (.ReceivedNoteId db.last_insert_rowid, db)) ∧
    put_received_note c1db c1out 1 = .ok (.ReceivedNoteId 42, c1db) ∧
    c1db.received_notes = [] := by
  refine ⟨fun db o t h => put_received_note_empty db o t h, ?_, rfl⟩
  exact put_received_note_empty c1db c1out 1 rfl

/-- Witness: the universal part of C1 applied at the concrete state c1db,
discharging its hypothesis there. -/
theorem C1_witness :
    put_received_note c1db c1out 5 = .ok (.ReceivedNoteId 42, c1db) :=
  C1_put_received_note_never_inserts.1 c1db c1out 5 rfl

/-! ### Claim C10 -/

/-- C10: a spend of an unknown nullifier is silently ignored: whenever no
received-note row carries the nullifier, mark_spent returns Ok and the
entire wallet state (every table) is unchanged. -/
theorem C10_mark_spent_unknown_nf_is_noop :
    ∀ (db : WalletDb) (tx_ref : Int) (nf : List Nat),
      (∀ r ∈ db.received_notes, r.nf ≠ nf) →
        mark_spent db tx_ref nf = .ok ((), db) :=
  fun db tx_ref nf h => mark_spent_unknown_nf db tx_ref nf h

/-- Witness: C10 applied at c10db and nullifier [8], discharging the
unknown-nullifier hypothesis by evaluation. -/
theorem C10_witness :
    mark_spent c10db 3 [8] = .ok ((), c10db) :=
  C10_mark_spent_unknown_nf_is_noop c10db 3 [8] (by decide)

/-- The fold computing the minimum stored height is a lower bound. -/
lemma foldr_min_le (h : Nat) (t : List Nat) :
    ∀ x ∈ h :: t, t.foldr min h ≤ x := by
  induction t with
  | nil =>
    intro x hx
    simp only [List.mem_singleton] at hx
    simp [hx]
  | cons a t ih =>
    intro x hx
    rcases List.mem_cons.mp hx with hxh | hx2
    · exact le_trans (min_le_right _ _) (ih x (hxh ▸ List.mem_cons_self h t))
    · rcases List.mem_cons.mp hx2 with hxa | hxt
      · exact hxa ▸ min_le_left _ _
      · exact le_trans (min_le_right _ _) (ih x (List.mem_cons_of_mem h hxt))

/-- The fold computing the minimum stored height is one of the heights. -/
lemma foldr_min_mem (h : Nat) (t : List Nat) : t.foldr min h ∈ h :: t := by
  induction t with
  | nil => simp
  | cons a t ih =>
    show min a (t.foldr min h) ∈ h :: a :: t
    rcases le_total a (t.foldr min h) with hle | hle
    · rw [min_eq_left hle]
      exact List.mem_cons_of_mem h (List.mem_cons_self a t)
    · rw [min_eq_right hle]
      rcases List.mem_cons.mp ih with hh | ht
      · rw [hh]
        exact List.mem_cons_self h (a :: t)
      · exact List.mem_cons_of_mem h (List.mem_cons_of_mem a ht)

/-- The fold computing the maximum stored height is an upper bound. -/
lemma foldr_le_max (h : Nat) (t : List Nat) :
    ∀ x ∈ h :: t, x ≤ t.foldr max h := by
  induction t with
  | nil =>
    intro x hx
    simp only [List.mem_singleton] at hx
    simp [hx]
  | cons a t ih =>
    intro x hx
    rcases List.mem_cons.mp hx with hxh | hx2
    · exact le_trans (ih x (hxh ▸ List.mem_cons_self h t)) (le_max_right _ _)
    · rcases List.mem_cons.mp hx2 with hxa | hxt
      · exact hxa ▸ le_max_left _ _
      · exact le_trans (ih x (List.mem_cons_of_mem h hxt)) (le_max_right _ _)

/-- The fold computing the maximum stored height is one of the heights. -/
lemma foldr_max_mem (h : Nat) (t : List Nat) : t.foldr max h ∈ h :: t := by
  induction t with
  | nil => simp
  | cons a t ih =>
    show max a (t.foldr max h) ∈ h :: a :: t
    rcases le_total a (t.foldr max h) with hle | hle
    · rw [max_eq_right hle]
      rcases List.mem_cons.mp ih with hh | ht
      · rw [hh]
        exact List.mem_cons_self h (a :: t)
      · exact List.mem_cons_of_mem h (List.mem_cons_of_mem a ht)
    · rw [max_eq_left hle]
      exact List.mem_cons_of_mem h (List.mem_cons_self a t)

/-- The modelled block_height_extrema returns exactly the least and greatest
stored heights. -/
lemma wallet_block_height_extrema_eq (db : WalletDb) (mn mx : Nat)
    (hmn : mn ∈ db.blocks.map (fun b => b.height) ∧
      ∀ x ∈ db.blocks.map (fun b => b.height), mn ≤ x)
    (hmx : mx ∈ db.blocks.map (fun b => b.height) ∧
      ∀ x ∈ db.blocks.map (fun b => b.height), x ≤ mx) :
    wallet_block_height_extrema db = some (mn, mx) := by
  unfold wallet_block_height_extrema
  rcases hE : db.blocks.map (fun b => b.height) with _ | ⟨h, t⟩
  · rw [hE] at hmn
    exact absurd hmn.1 (List.not_mem_nil mn)
  · rw [hE] at hmn hmx
    have h1 : t.foldr min h = mn :=
      le_antisymm (foldr_min_le h t mn hmn.1) (hmn.2 _ (foldr_min_mem h t))
    have h2 : t.foldr max h = mx :=
      le_antisymm (hmx.2 _ (foldr_max_mem h t)) (foldr_le_max h t mx hmx.1)
    simp only [hE, h1, h2]

/-! ### Claim C4 -/

/-- C4: with at least one stored block, get_target_and_anchor_heights
returns Some of target = max + 1 and anchor = max(target − 10, min), the
subtraction saturating at 0 (Nat subtraction); with no stored block it
returns None.  min and max are characterized as the least and greatest
stored block heights. -/
theorem C4_target_and_anchor_heights :
    (∀ (db : WalletDb) (mn mx : Nat),
      (mn ∈ db.blocks.map (fun b => b.height) ∧
        ∀ x ∈ db.blocks.map (fun b => b.height), mn ≤ x) →
      (mx ∈ db.blocks.map (fun b => b.height) ∧
        ∀ x ∈ db.blocks.map (fun b => b.height), x ≤ mx) →
      get_target_and_anchor_heights db = some (mx + 1, max (mx + 1 - 10) mn)) ∧
    (∀ db : WalletDb, db.blocks = [] →
      get_target_and_anchor_heights db = none) := by
  constructor
  · intro db mn mx hmn hmx
    unfold get_target_and_anchor_heights
    rw [wallet_block_height_extrema_eq db mn mx hmn hmx]
    simp [ANCHOR_OFFSET]
  · intro db h
    unfold get_target_and_anchor_heights wallet_block_height_extrema
    rw [h]
    simp

/-- Witness: C4 applied at c4db (extrema 3 and 7, both hypotheses
discharged by evaluation; 7 + 1 − 10 saturates to 0, so the anchor is the
minimum 3) and at the empty store. -/
theorem C4_witness :
    get_target_and_anchor_heights c4db = some (8, 3) ∧
    get_target_and_anchor_heights initWalletDb = none := by
  constructor
  · have := C4_target_and_anchor_heights.1 c4db 3 7 (by decide) (by decide)
    simpa using this
  · exact C4_target_and_anchor_heights.2 initWalletDb rfl

/-! ### Claim C9 -/

/-- C9: the claim is that in both variants every WalletRead operation on a
DataConnStmtCacheAsync handle terminates with the value of the underlying
WalletDbAsync.  This holds in the for_async variant, whose methods delegate
to the wallet_db field (first two conjuncts, shown for block_height_extrema
and get_block_hash).  In the with_async variant each read method calls
itself, so the call never returns: for every recursion bound the model
yields none (third and fourth conjuncts), even on states where the
underlying WalletDbAsync read returns a value (last conjunct, at c9db). -/
theorem C9_facade_read_equivalence :
    (∀ db : WalletDb, forAsync_dataConn_block_height_extrema db =
      forAsync_walletDb_block_height_extrema db) ∧
    (∀ (db : WalletDb) (h : Nat), forAsync_dataConn_get_block_hash db h =
      forAsync_walletDb_get_block_hash db h) ∧
    (∀ (fuel : Nat) (db : WalletDb),
      withAsync_dataConn_block_height_extrema fuel db = none) ∧
    (∀ (fuel : Nat) (db : WalletDb) (h : Nat),
      withAsync_dataConn_get_block_hash fuel db h = none) ∧
    (withAsync_walletDb_block_height_extrema c9db = .ok (some (5, 5)) ∧
      withAsync_dataConn_block_height_extrema 1000 c9db = none) := by
  have h3 : ∀ (fuel : Nat) (db : WalletDb),
      withAsync_dataConn_block_height_extrema fuel db = none := by
    intro fuel
    induction fuel with
    | zero => intro db; rfl
    | succ n ih => intro db; exact ih db
  have h4 : ∀ (fuel : Nat) (db : WalletDb) (h : Nat),
      withAsync_dataConn_get_block_hash fuel db h = none := by
    intro fuel
    induction fuel with
    | zero => intro db h; rfl
    | succ n ih => intro db h; exact ih db h
  exact ⟨fun _ => rfl, fun _ _ => rfl, h3, h4, by decide, h3 1000 c9db⟩

/-! ### Claim C7 -/

/-- The account insertion loop appends exactly one accounts row per
enumerated key, with the encoded key and derived address, and touches no
other table. -/
lemma insert_accounts_loop_spec {K : Type} (encode derive : K → List Nat) :
    ∀ (l : List (Nat × K)) (db : WalletDb),
      (insert_accounts_loop encode derive db l).accounts =
        db.accounts ++ l.map (fun p => ⟨p.1, encode p.2, derive p.2⟩) ∧
      (insert_accounts_loop encode derive db l).blocks = db.blocks ∧
      (insert_accounts_loop encode derive db l).transactions = db.transactions ∧
      (insert_accounts_loop encode derive db l).received_notes = db.received_notes ∧
      (insert_accounts_loop encode derive db l).sapling_witnesses =
        db.sapling_witnesses ∧
      (insert_accounts_loop encode derive db l).sent_notes = db.sent_notes := by
  intro l
  induction l with
  | nil => intro db; simp [insert_accounts_loop]
  | cons p rest ih =>
    intro db
    cases p with
    | mk i k => simp [insert_accounts_loop, ih]

/-- C7: both initializations are one-time and non-destructive on re-run.
init_accounts_table fails with TableNotEmpty and changes nothing when any
account row exists; on an empty accounts table it succeeds and inserts, for
each index i of the key list, account i with the i-th encoded ExtFVK and
its derived default address, touching no other table.  init_blocks_table
fails with TableNotEmpty and changes nothing when any block row exists; on
an empty blocks table it succeeds and inserts exactly the one checkpoint
row, touching no other table. -/
theorem C7_init_tables_one_time :
    ∀ {K : Type} (encode derive : K → List Nat) (db : WalletDb) (ks : List K)
      (height : Nat) (hash : List Nat) (time : Nat) (tree : List Nat),
    (db.accounts ≠ [] →
      init_accounts_table encode derive db ks = (.error .TableNotEmpty, db)) ∧
    (db.accounts = [] →
      (init_accounts_table encode derive db ks).1 = .ok () ∧
      (init_accounts_table encode derive db ks).2.accounts =
        ks.enum.map (fun p => ⟨p.1, encode p.2, derive p.2⟩) ∧
      (init_accounts_table encode derive db ks).2.blocks = db.blocks ∧
      (init_accounts_table encode derive db ks).2.transactions =
        db.transactions ∧
      (init_accounts_table encode derive db ks).2.received_notes =
        db.received_notes ∧
      (init_accounts_table encode derive db ks).2.sapling_witnesses =
        db.sapling_witnesses ∧
      (init_accounts_table encode derive db ks).2.sent_notes = db.sent_notes) ∧
    (db.blocks ≠ [] →
      init_blocks_table db height hash time tree = (.error .TableNotEmpty, db)) ∧
    (db.blocks = [] →
      (init_blocks_table db height hash time tree).1 = .ok () ∧
      (init_blocks_table db height hash time tree).2.blocks =
        [⟨height, hash, time, tree⟩] ∧
      (init_blocks_table db height hash time tree).2.accounts = db.accounts ∧
      (init_blocks_table db height hash time tree).2.transactions =
        db.transactions ∧
      (init_blocks_table db height hash time tree).2.received_notes =
        db.received_notes ∧
      (init_blocks_table db height hash time tree).2.sapling_witnesses =
        db.sapling_witnesses ∧
      (init_blocks_table db height hash time tree).2.sent_notes =
        db.sent_notes) := by
  intro K encode derive db ks height hash time tree
  refine ⟨?_, ?_, ?_, ?_⟩
  · intro h
    unfold init_accounts_table
    rcases hA : db.accounts with _ | ⟨a, rest⟩
    · exact absurd hA h
    · simp [hA]
  · intro h
    unfold init_accounts_table
    rw [h]
    have hloop := insert_accounts_loop_spec encode derive ks.enum db
    have hacc : (insert_accounts_loop encode derive db ks.enum).accounts =
        ks.enum.map (fun p => ⟨p.1, encode p.2, derive p.2⟩) := by
      rw [hloop.1, h]
      rfl
    exact ⟨rfl, hacc, hloop.2.1, hloop.2.2.1, hloop.2.2.2.1,
      hloop.2.2.2.2.1, hloop.2.2.2.2.2⟩
  · intro h
    unfold init_blocks_table
    rcases hB : db.blocks with _ | ⟨b, rest⟩
    · exact absurd hB h
    · simp [hB]
  · intro h
    unfold init_blocks_table
    rw [h]
    simp

/-- Witness: C7 applied at concrete inputs, discharging each hypothesis:
a non-empty accounts table rejects re-initialization; the empty store
accepts two keys and stores their encodings and derived addresses; a
non-empty blocks table rejects re-initialization; the empty store accepts
one checkpoint row. -/
theorem C7_witness :
    init_accounts_table (fun k => [k]) (fun k => [k + 1]) c7dbAcc [5] =
      (.error .TableNotEmpty, c7dbAcc) ∧
    (init_accounts_table (fun k => [k]) (fun k => [k + 1]) initWalletDb
        [5, 8]).2.accounts = [⟨0, [5], [6]⟩, ⟨1, [8], [9]⟩] ∧
    init_blocks_table c7dbBlk 4 [7] 1 [2] = (.error .TableNotEmpty, c7dbBlk) ∧
    (init_blocks_table initWalletDb 4 [7] 1 [2]).2.blocks = [⟨4, [7], 1, [2]⟩] := by
  refine ⟨?_, ?_, ?_, ?_⟩
  · exact (C7_init_tables_one_time (fun k => [k]) (fun k => [k + 1]) c7dbAcc
      [5] 4 [7] 1 [2]).1 (by decide)
  · have := (C7_init_tables_one_time (fun k => [k]) (fun k => [k + 1])
      initWalletDb [5, 8] 4 [7] 1 [2]).2.1 rfl
    rw [this.2.1]
    rfl
  · exact (C7_init_tables_one_time (fun k => [k]) (fun k => [k + 1]) c7dbBlk
      [5] 4 [7] 1 [2]).2.2.1 (by decide)
  · exact ((C7_init_tables_one_time (fun k => [k]) (fun k => [k + 1])
      initWalletDb [5] 4 [7] 1 [2]).2.2.2 rfl).2.1

/-! ### Claim C2 -/

/-- If the witness insertion loop of advance_by_block returns Ok, every
note ref in its list was a received-note id. -/
lemma insert_witnesses_loop_ok_all_received :
    ∀ (l : List (NoteId × List Nat)) (db : WalletDb) (h : Nat)
      (x : Unit × WalletDb),
      insert_witnesses_loop db h l = .ok x →
        ∀ p ∈ l, p.1.isReceived = true := by
  intro l
  induction l with
  | nil =>
    intro db h x _ p hp
    exact absurd hp (List.not_mem_nil p)
  | cons q rest ih =>
    intro db h x hok p hp
    cases q with
    | mk nid w =>
      cases nid with
      | SentNoteId i =>
        exact absurd hok (by simp [insert_witnesses_loop])
      | ReceivedNoteId i =>
        rcases List.mem_cons.mp hp with hphead | hp2
        · rw [hphead]
          rfl
        · simp only [insert_witnesses_loop] at hok
          cases hiw : insert_witness db i w h with
          | error e =>
            rw [hiw] at hok
            simp at hok
          | ok y =>
            rw [hiw] at hok
            simp only [] at hok
            exact ih y.2 h x hok p hp2

/-- If the transaction body of advance_by_block returns Ok, the witness
insertion loop ran to completion, so every updated witness carried a
received-note id. -/
lemma advance_body_ok_all_received (db : WalletDb) (b : PrunedBlockM)
    (uw : List (NoteId × List Nat)) (x : List (NoteId × List Nat) × WalletDb)
    (hok : advance_by_block_body db b uw = .ok x) :
    ∀ p ∈ uw, p.1.isReceived = true := by
  unfold advance_by_block_body at hok
  cases h1 : insert_block db b.block_height b.block_hash b.block_time
      b.commitment_tree with
  | error e =>
    rw [h1] at hok
    simp at hok
  | ok p1 =>
    rw [h1] at hok
    simp only [] at hok
    cases h2 : scan_txs_loop p1.2 b.block_height [] b.transactions with
    | error e =>
      rw [h2] at hok
      simp at hok
    | ok p2 =>
      rw [h2] at hok
      simp only [] at hok
      cases h3 : insert_witnesses_loop p2.2 b.block_height (uw ++ p2.1) with
      | error e =>
        rw [h3] at hok
        simp at hok
      | ok p3 =>
        intro p hp
        exact insert_witnesses_loop_ok_all_received (uw ++ p2.1) p2.2
          b.block_height p3 h3 p (List.mem_append_left p2.1 hp)

/-- C2 (amended): advance_by_block is all-or-nothing: whenever it returns
an error, the state after the call is the state before it (first conjunct).
If any element of updated_witnesses carries a NoteId that is not a
received-note id, the call returns an error with the state fully rolled
back (second conjunct); the error is specifically InvalidNoteId when the
operations preceding the witness check succeed, e.g. when the block's
height is not already stored and the block carries no transactions (third
conjunct).  Newly created witnesses always carry received-note ids, since
put_received_note only returns ReceivedNoteId values. -/
theorem C2_advance_by_block_witness_ref_rollback :
    (∀ (db : WalletDb) (b : PrunedBlockM) (uw : List (NoteId × List Nat))
        (e : SqliteClientError),
      (advance_by_block db b uw).1 = .error e →
        (advance_by_block db b uw).2 = db) ∧
    (∀ (db : WalletDb) (b : PrunedBlockM) (uw : List (NoteId × List Nat)),
      (∃ p ∈ uw, p.1.isReceived = false) →
        ∃ e, advance_by_block db b uw = (.error e, db)) ∧
    (∀ (db : WalletDb) (b : PrunedBlockM) (i : Int) (w : List Nat)
        (rest : List (NoteId × List Nat)),
      db.blocks.any (fun bl => bl.height == b.block_height) = false →
      b.transactions = [] →
        advance_by_block db b ((.SentNoteId i, w) :: rest) =
          (.error .InvalidNoteId, db)) := by
  refine ⟨?_, ?_, ?_⟩
  · intro db b uw e h
    cases hbody : advance_by_block_body db b uw with
    | error e2 =>
      have ht : advance_by_block db b uw = (.error e2, db) :=
        transactionally_error db _ e2 hbody
      rw [ht]
    | ok x =>
      have ht : advance_by_block db b uw = (.ok x.1, x.2) :=
        transactionally_ok db _ x hbody
      rw [ht] at h
      exact absurd h (by simp)
  · intro db b uw hbad
    rcases hbad with ⟨p, hp, hnotrec⟩
    cases hbody : advance_by_block_body db b uw with
    | error e =>
      exact ⟨e, transactionally_error db _ e hbody⟩
    | ok x =>
      have := advance_body_ok_all_received db b uw x hbody p hp
      rw [this] at hnotrec
      exact absurd hnotrec (by simp)
  · intro db b i w rest hfresh htx
    have hbody : advance_by_block_body db b ((.SentNoteId i, w) :: rest) =
        .error .InvalidNoteId := by
      unfold advance_by_block_body
      simp [insert_block, hfresh, htx, scan_txs_loop, insert_witnesses_loop]
    exact transactionally_error db _ .InvalidNoteId hbody

/-- Counterexample to C2 as stated: at c2db with c2blk, updated_witnesses
carries a sent-note ref (not a received-note id), yet the call does not
return InvalidNoteId — the block insert fails first with a constraint
DbError (still rolled back).  So the claimed error identity fails, though
the all-or-nothing part holds. -/
theorem C2_counterexample :
    (advance_by_block c2db c2blk [(NoteId.SentNoteId 0, [])]).1 ≠
      .error .InvalidNoteId ∧
    (∃ p ∈ [(NoteId.SentNoteId 0, ([] : List Nat))], p.1.isReceived = false) ∧
    (advance_by_block c2db c2blk [(NoteId.SentNoteId 0, [])]).2 = c2db := by
  decide

/-- Witness: C2 applied at concrete inputs, discharging each hypothesis:
the rollback part at the constraint failure of c2db/c2blk, the error part
at the same input with its sent-note ref, and the InvalidNoteId part on the
empty store with a fresh block. -/
theorem C2_witness :
    (advance_by_block c2db c2blk [(NoteId.SentNoteId 0, [])]).2 = c2db ∧
    (∃ e, advance_by_block c2db c2blk [(NoteId.SentNoteId 0, [])] =
      (.error e, c2db)) ∧
    advance_by_block initWalletDb c2blkFresh [(NoteId.SentNoteId 0, [])] =
      (.error .InvalidNoteId, initWalletDb) := by
  refine ⟨?_, ?_, ?_⟩
  · exact C2_advance_by_block_witness_ref_rollback.1 c2db c2blk
      [(NoteId.SentNoteId 0, [])]
      (.DbError "UNIQUE constraint failed: blocks.height") (by decide)
  · exact C2_advance_by_block_witness_ref_rollback.2.1 c2db c2blk
      [(NoteId.SentNoteId 0, [])] (by decide)
  · exact C2_advance_by_block_witness_ref_rollback.2.2 initWalletDb c2blkFresh
      0 [] [] (by decide) rfl

/-! ### Claim C3 -/

/-- insert_block never raises DoubleSpend. -/
lemma insert_block_no_ds (db : WalletDb) (bh : Nat) (hs : List Nat) (bt : Nat)
    (tr : List Nat) (e : SqliteClientError)
    (h : insert_block db bh hs bt tr = .error e) : e ≠ .DoubleSpend := by
  unfold insert_block at h
  split at h
  · injection h with h2
    subst h2
    simp
  · simp at h

/-- put_tx_meta never raises DoubleSpend. -/
lemma put_tx_meta_no_ds (db : WalletDb) (txid : List Nat) (i : Int) (ht : Nat)
    (e : SqliteClientError) (h : put_tx_meta db txid i ht = .error e) :
    e ≠ .DoubleSpend := by
  unfold put_tx_meta at h
  split at h
  · simp at h
  · split at h
    · simp at h
    · injection h with h2
      subst h2
      simp

/-- The received-note UPDATE never raises DoubleSpend. -/
lemma received_note_update_no_ds (db : WalletDb) (o : ShieldedOutputData)
    (t : Int) (e : SqliteClientError)
    (h : received_note_update db o t = .error e) : e ≠ .DoubleSpend := by
  simp only [received_note_update] at h
  split at h
  · injection h with h2
    subst h2
    simp
  · simp at h

/-- put_received_note never raises DoubleSpend. -/
lemma put_received_note_no_ds (db : WalletDb) (o : ShieldedOutputData)
    (t : Int) (e : SqliteClientError)
    (h : put_received_note db o t = .error e) : e ≠ .DoubleSpend := by
  unfold put_received_note at h
  cases h1 : received_note_update db o t with
  | error e1 =>
    rw [h1] at h
    injection h with h2
    subst h2
    exact received_note_update_no_ds db o t e1 h1
  | ok r1 =>
    rw [h1] at h
    simp only [] at h
    split at h
    · cases h2 : received_note_update r1.2 o t with
      | error e2 =>
        rw [h2] at h
        injection h with h3
        subst h3
        exact received_note_update_no_ds r1.2 o t e2 h2
      | ok r2 =>
        rw [h2] at h
        simp at h
    · split at h
      · simp at h
      · injection h with h2
        subst h2
        simp

/-- insert_witness never raises DoubleSpend. -/
lemma insert_witness_no_ds (db : WalletDb) (n : Int) (w : List Nat) (ht : Nat)
    (e : SqliteClientError) (h : insert_witness db n w ht = .error e) :
    e ≠ .DoubleSpend := by
  unfold insert_witness at h
  split at h
  · injection h with h2
    subst h2
    simp
  · simp at h

/-- The mark_spent loop never raises DoubleSpend (mark_spent itself never
errors). -/
lemma mark_spent_loop_no_ds :
    ∀ (l : List (List Nat)) (db : WalletDb) (t : Int) (e : SqliteClientError),
      mark_spent_loop db t l = .error e → e ≠ .DoubleSpend := by
  intro l
  induction l with
  | nil =>
    intro db t e h
    simp [mark_spent_loop] at h
  | cons nf rest ih =>
    intro db t e h
    simp only [mark_spent_loop, mark_spent] at h
    exact ih _ t e h

/-- The output loop of advance_by_block never raises DoubleSpend. -/
lemma put_outputs_loop_no_ds :
    ∀ (l : List WalletShieldedOutputM) (db : WalletDb) (t : Int)
      (nw : List (NoteId × List Nat)) (e : SqliteClientError),
      put_outputs_loop db t nw l = .error e → e ≠ .DoubleSpend := by
  intro l
  induction l with
  | nil =>
    intro db t nw e h
    simp [put_outputs_loop] at h
  | cons o rest ih =>
    intro db t nw e h
    simp only [put_outputs_loop] at h
    cases h1 : put_received_note db o.toShielded t with
    | error e1 =>
      rw [h1] at h
      injection h with h2
      subst h2
      exact put_received_note_no_ds db o.toShielded t e1 h1
    | ok y =>
      rw [h1] at h
      simp only [] at h
      exact ih y.2 t (nw ++ [(y.1, o.witness)]) e h

/-- The transaction loop of advance_by_block never raises DoubleSpend. -/
lemma scan_txs_loop_no_ds :
    ∀ (l : List WalletTxM) (db : WalletDb) (ht : Nat)
      (nw : List (NoteId × List Nat)) (e : SqliteClientError),
      scan_txs_loop db ht nw l = .error e → e ≠ .DoubleSpend := by
  intro l
  induction l with
  | nil =>
    intro db ht nw e h
    simp [scan_txs_loop] at h
  | cons tx rest ih =>
    intro db ht nw e h
    simp only [scan_txs_loop] at h
    cases h1 : put_tx_meta db tx.txid tx.index ht with
    | error e1 =>
      rw [h1] at h
      injection h with h2
      subst h2
      exact put_tx_meta_no_ds db tx.txid tx.index ht e1 h1
    | ok r1 =>
      rw [h1] at h
      simp only [] at h
      cases h2 : mark_spent_loop r1.2 r1.1 tx.shielded_spends with
      | error e2 =>
        rw [h2] at h
        injection h with h3
        subst h3
        exact mark_spent_loop_no_ds tx.shielded_spends r1.2 r1.1 e2 h2
      | ok r2 =>
        rw [h2] at h
        simp only [] at h
        cases h3 : put_outputs_loop r2.2 r1.1 nw tx.shielded_outputs with
        | error e3 =>
          rw [h3] at h
          injection h with h4
          subst h4
          exact put_outputs_loop_no_ds tx.shielded_outputs r2.2 r1.1 nw e3 h3
        | ok r3 =>
          rw [h3] at h
          simp only [] at h
          exact ih r3.2 ht r3.1 e h

/-- The witness loop of advance_by_block never raises DoubleSpend (its
errors are InvalidNoteId or constraint DbErrors). -/
lemma insert_witnesses_loop_no_ds :
    ∀ (l : List (NoteId × List Nat)) (db : WalletDb) (ht : Nat)
      (e : SqliteClientError),
      insert_witnesses_loop db ht l = .error e → e ≠ .DoubleSpend := by
  intro l
  induction l with
  | nil =>
    intro db ht e h
    simp [insert_witnesses_loop] at h
  | cons q rest ih =>
    intro db ht e h
    cases q with
    | mk nid w =>
      cases nid with
      | SentNoteId i =>
        simp only [insert_witnesses_loop] at h
        injection h with h2
        subst h2
        simp
      | ReceivedNoteId i =>
        simp only [insert_witnesses_loop] at h
        cases h1 : insert_witness db i w ht with
        | error e1 =>
          rw [h1] at h
          injection h with h2
          subst h2
          exact insert_witness_no_ds db i w ht e1 h1
        | ok y =>
          rw [h1] at h
          simp only [] at h
          exact ih y.2 ht e h

/-- The whole advance_by_block body never raises DoubleSpend. -/
lemma advance_body_no_ds (db : WalletDb) (b : PrunedBlockM)
    (uw : List (NoteId × List Nat)) (e : SqliteClientError)
    (h : advance_by_block_body db b uw = .error e) : e ≠ .DoubleSpend := by
  unfold advance_by_block_body at h
  cases h1 : insert_block db b.block_height b.block_hash b.block_time
      b.commitment_tree with
  | error e1 =>
    rw [h1] at h
    injection h with h2
    subst h2
    exact insert_block_no_ds db b.block_height b.block_hash b.block_time
      b.commitment_tree e1 h1
  | ok r1 =>
    rw [h1] at h
    simp only [] at h
    cases h2 : scan_txs_loop r1.2 b.block_height [] b.transactions with
    | error e2 =>
      rw [h2] at h
      injection h with h3
      subst h3
      exact scan_txs_loop_no_ds b.transactions r1.2 b.block_height [] e2 h2
    | ok r2 =>
      rw [h2] at h
      simp only [] at h
      cases h3 : insert_witnesses_loop r2.2 b.block_height (uw ++ r2.1) with
      | error e3 =>
        rw [h3] at h
        injection h with h4
        subst h4
        exact insert_witnesses_loop_no_ds (uw ++ r2.1) r2.2 b.block_height e3 h3
      | ok r3 =>
        rw [h3] at h
        simp [prune_witnesses, update_expired_notes] at h

/-- C3 (amended): a nullifier clash with an already-spent note is not
rejected: advance_by_block can never return DoubleSpend (first conjunct:
no operation in its pipeline produces that error), and mark_spent simply
overwrites the spent pointer of every row carrying the nullifier with the
new transaction reference, spent or not (second conjunct). -/
theorem C3_double_spend_overwrites :
    (∀ (db : WalletDb) (b : PrunedBlockM) (uw : List (NoteId × List Nat)),
      (advance_by_block db b uw).1 ≠ .error .DoubleSpend) ∧
    (∀ (db : WalletDb) (t : Int) (nfv : List Nat),
      ∃ db2, mark_spent db t nfv = .ok ((), db2) ∧
        ∀ r ∈ db.received_notes, r.nf = nfv →
          { r with spent := some t } ∈ db2.received_notes) := by
  constructor
  · intro db b uw h
    cases hbody : advance_by_block_body db b uw with
    | error e =>
      have ht : advance_by_block db b uw = (.error e, db) :=
        transactionally_error db _ e hbody
      rw [ht] at h
      injection h with h2
      exact advance_body_no_ds db b uw e hbody h2
    | ok x =>
      have ht : advance_by_block db b uw = (.ok x.1, x.2) :=
        transactionally_ok db _ x hbody
      rw [ht] at h
      exact absurd h (by simp)
  · intro db t nfv
    refine ⟨_, rfl, ?_⟩
    intro r hr hnf
    have hcond : (r.nf == nfv) = true := by simp [hnf]
    have hmem := List.mem_map_of_mem
      (fun r => if r.nf == nfv then { r with spent := some t } else r) hr
    simp only [] at hmem
    rw [if_pos hcond] at hmem
    exact hmem

/-- Counterexample to C3 as stated: at c3db, whose note is already spent
(spent = some 7), ingesting c3blk, which spends that note's nullifier,
succeeds with Ok instead of the claimed DoubleSpend rejection, and the
spend is recorded over the existing spent pointer (it becomes the new
transaction row 1). -/
theorem C3_counterexample :
    c3db.received_notes.map (fun r => r.spent) = [some 7] ∧
    (advance_by_block c3db c3blk []).1 = .ok [] ∧
    (advance_by_block c3db c3blk []).1 ≠ .error .DoubleSpend ∧
    (advance_by_block c3db c3blk []).2.received_notes.map (fun r => r.spent) =
      [some 1] := by
  decide

/-- Witness: both parts of C3 applied at concrete inputs — the
no-DoubleSpend part at the c3db ingestion, and the overwrite part at c3db2,
discharging the membership and nullifier hypotheses there. -/
theorem C3_witness :
    (advance_by_block c3db c3blk []).1 ≠ .error .DoubleSpend ∧
    (∃ db2, mark_spent c3db2 1 [9] = .ok ((), db2) ∧
      (⟨1, 4, 0, 0, [], 5, [], [9], false, none, some 1⟩ : ReceivedNoteRow) ∈
        db2.received_notes) := by
  constructor
  · exact C3_double_spend_overwrites.1 c3db c3blk []
  · obtain ⟨db2, h1, h2⟩ := C3_double_spend_overwrites.2 c3db2 1 [9]
    refine ⟨db2, h1, ?_⟩
    have := h2 ⟨1, 4, 0, 0, [], 5, [], [9], false, none, some 4⟩ (by decide) rfl
    exact this

/-! ### Claim C5 -/

/-- The exact 512-byte marker maps to NULL. -/
lemma canonicalizeMemo_marker : canonicalizeMemo (some memoPattern) = none := by
  simp [canonicalizeMemo]

/-- Any memo other than the exact marker is unchanged. -/
lemma canonicalizeMemo_other (m : Option (List Nat)) (h : m ≠ some memoPattern) :
    canonicalizeMemo m = m := by
  simp [canonicalizeMemo, h]

/-- Indexing two equal lists at the same position gives the same element. -/
lemma get_eq_of_list_eq {α : Type} (l l2 : List α) (h : l = l2) (i : Nat)
    (hi : i < l.length) (hi2 : i < l2.length) :
    l.get ⟨i, hi⟩ = l2.get ⟨i, hi2⟩ := by
  subst h
  rfl

/-- Indexing a mapped list. -/
lemma get_map_fin {α β : Type} (f : α → β) (l : List α) (i : Nat)
    (h1 : i < l.length) (h2 : i < (l.map f).length) :
    (l.map f).get ⟨i, h2⟩ = f (l.get ⟨i, h1⟩) := by
  simp

/-- On success the migration rewrote the two memo columns through
canonicalizeMemo and the transactions through the fee backfill. -/
lemma add_transaction_views_up_ok (db db' : MigDb)
    (h : add_transaction_views_up db = .ok db') :
    db'.sent_notes = db.sent_notes.map
      (fun s => { s with memo := canonicalizeMemo s.memo }) ∧
    db'.received_notes = db.received_notes.map
      (fun r => { r with memo := canonicalizeMemo r.memo }) ∧
    backfill_fees db.utxos db.transactions = .ok db'.transactions := by
  unfold add_transaction_views_up at h
  cases hb : backfill_fees db.utxos db.transactions with
  | error e =>
    rw [hb] at h
    simp at h
  | ok txs =>
    rw [hb] at h
    simp only [] at h
    injection h with h2
    subst h2
    exact ⟨rfl, rfl, rfl⟩

/-- C5: after a successful run of the add_transaction_views migration, both
note tables keep their length, every row whose memo was exactly the
512-byte marker 0xF6 followed by 511 zero bytes has memo NULL, and every
row with any other memo value is entirely unchanged. -/
theorem C5_memo_canonicalization :
    ∀ (db db' : MigDb), add_transaction_views_up db = .ok db' →
      (db'.sent_notes.length = db.sent_notes.length ∧
        db'.received_notes.length = db.received_notes.length) ∧
      (∀ (i : Fin db.sent_notes.length) (hi : i.1 < db'.sent_notes.length),
        ((db.sent_notes.get i).memo = some memoPattern →
          (db'.sent_notes.get ⟨i.1, hi⟩).memo = none) ∧
        ((db.sent_notes.get i).memo ≠ some memoPattern →
          db'.sent_notes.get ⟨i.1, hi⟩ = db.sent_notes.get i)) ∧
      (∀ (j : Fin db.received_notes.length)
          (hj : j.1 < db'.received_notes.length),
        ((db.received_notes.get j).memo = some memoPattern →
          (db'.received_notes.get ⟨j.1, hj⟩).memo = none) ∧
        ((db.received_notes.get j).memo ≠ some memoPattern →
          db'.received_notes.get ⟨j.1, hj⟩ = db.received_notes.get j)) := by
  intro db db' h
  obtain ⟨hs, hr, _⟩ := add_transaction_views_up_ok db db' h
  refine ⟨⟨by rw [hs]; simp, by rw [hr]; simp⟩, ?_, ?_⟩
  · intro i hi
    have hlen2 : i.1 <
        (db.sent_notes.map
          (fun s => { s with memo := canonicalizeMemo s.memo })).length := by
      simp [i.2]
    have hget : db'.sent_notes.get ⟨i.1, hi⟩ =
        { db.sent_notes.get i with
          memo := canonicalizeMemo (db.sent_notes.get i).memo } :=
      (get_eq_of_list_eq db'.sent_notes _ hs i.1 hi hlen2).trans
        (get_map_fin (fun s => { s with memo := canonicalizeMemo s.memo })
          db.sent_notes i.1 i.2 hlen2)
    constructor
    · intro hp
      rw [hget, hp]
      simp [canonicalizeMemo_marker]
    · intro hp
      rw [hget, canonicalizeMemo_other _ hp]
  · intro j hj
    have hlen2 : j.1 <
        (db.received_notes.map
          (fun r => { r with memo := canonicalizeMemo r.memo })).length := by
      simp [j.2]
    have hget : db'.received_notes.get ⟨j.1, hj⟩ =
        { db.received_notes.get j with
          memo := canonicalizeMemo (db.received_notes.get j).memo } :=
      (get_eq_of_list_eq db'.received_notes _ hr j.1 hj hlen2).trans
        (get_map_fin (fun r => { r with memo := canonicalizeMemo r.memo })
          db.received_notes j.1 j.2 hlen2)
    constructor
    · intro hp
      rw [hget, hp]
      simp [canonicalizeMemo_marker]
    · intro hp
      rw [hget, canonicalizeMemo_other _ hp]

set_option maxRecDepth 8000 in
/-- Witness: C5 applied at c5db, discharging the success hypothesis and the
per-row memo hypotheses by evaluation: the marker memo is NULLed, the
deviating memo row is unchanged. -/
theorem C5_witness :
    add_transaction_views_up c5db = .ok c5dbAfter ∧
    (c5dbAfter.sent_notes.get ⟨0, by decide⟩).memo = none ∧
    c5dbAfter.received_notes.get ⟨0, by decide⟩ =
      c5db.received_notes.get ⟨0, by decide⟩ := by
  have h : add_transaction_views_up c5db = .ok c5dbAfter := by decide
  have H := C5_memo_canonicalization c5db c5dbAfter h
  refine ⟨h, ?_, ?_⟩
  · exact (H.2.1 ⟨0, by decide⟩ (by decide)).1 rfl
  · exact (H.2.2 ⟨0, by decide⟩ (by decide)).2 (by decide)

/-! ### Claim C6 -/

/-- Every error of the UTXO resolution closure is CorruptedData. -/
lemma find_utxo_value_error_shape (utxos : List UtxoRow) (op : OutPointM)
    (e : SqliteClientError) (h : find_utxo_value utxos op = .error e) :
    ∃ m, e = .CorruptedData m := by
  unfold find_utxo_value at h
  split at h
  · injection h with h2
    exact ⟨_, h2.symm⟩
  · split at h
    · simp at h
    · injection h with h2
      exact ⟨_, h2.symm⟩

/-- Every error of the input sum, with the UTXO resolver, is
CorruptedData. -/
lemma sum_input_values_error_shape (utxos : List UtxoRow) :
    ∀ (l : List OutPointM) (e : SqliteClientError),
      sum_input_values (find_utxo_value utxos) l = .error e →
        ∃ m, e = .CorruptedData m := by
  intro l
  induction l with
  | nil =>
    intro e h
    simp [sum_input_values] at h
  | cons op rest ih =>
    intro e h
    simp only [sum_input_values] at h
    cases h1 : find_utxo_value utxos op with
    | error e1 =>
      rw [h1] at h
      injection h with h2
      subst h2
      exact find_utxo_value_error_shape utxos op e1 h1
    | ok v =>
      rw [h1] at h
      simp only [] at h
      cases h2 : sum_input_values (find_utxo_value utxos) rest with
      | error e2 =>
        rw [h2] at h
        injection h with h3
        subst h3
        exact ih e2 h2
      | ok s =>
        rw [h2] at h
        simp at h

/-- Every error of fee_paid, with the UTXO resolver, is CorruptedData. -/
lemma fee_paid_error_shape (utxos : List UtxoRow) (tx : TxParsed)
    (e : SqliteClientError)
    (h : fee_paid (find_utxo_value utxos) tx = .error e) :
    ∃ m, e = .CorruptedData m := by
  unfold fee_paid at h
  cases h1 : sum_input_values (find_utxo_value utxos) tx.vin with
  | error e1 =>
    rw [h1] at h
    injection h with h2
    subst h2
    exact sum_input_values_error_shape utxos tx.vin e1 h1
  | ok s =>
    rw [h1] at h
    simp at h

/-- When every row has a mined height, every error of the fee backfill
loop is CorruptedData (the only other error source is a NULL block
column). -/
lemma backfill_fees_error_shape (utxos : List UtxoRow) :
    ∀ (l : List MigTxRow) (e : SqliteClientError),
      (∀ row ∈ l, row.block ≠ none) →
      backfill_fees utxos l = .error e → ∃ m, e = .CorruptedData m := by
  intro l
  induction l with
  | nil =>
    intro e _ h
    simp [backfill_fees] at h
  | cons row rest ih =>
    intro e hblk h
    obtain ⟨bh, hb⟩ : ∃ bh, row.block = some bh := by
      cases hbb : row.block with
      | none => exact absurd hbb (hblk row (List.mem_cons_self row rest))
      | some v => exact ⟨v, rfl⟩
    simp only [backfill_fees] at h
    rw [hb] at h
    simp only [] at h
    have ihb : ∀ r2 ∈ rest, r2.block ≠ none :=
      fun r2 hr2 => hblk r2 (List.mem_cons_of_mem row hr2)
    cases hraw : row.raw with
    | none =>
      rw [hraw] at h
      simp only [] at h
      cases h1 : backfill_fees utxos rest with
      | error e1 =>
        rw [h1] at h
        injection h with h2
        subst h2
        exact ih e1 ihb h1
      | ok r =>
        rw [h1] at h
        simp at h
    | some tx =>
      rw [hraw] at h
      simp only [] at h
      cases h1 : fee_paid (find_utxo_value utxos) tx with
      | error e1 =>
        rw [h1] at h
        injection h with h2
        subst h2
        exact fee_paid_error_shape utxos tx e1 h1
      | ok f =>
        rw [h1] at h
        simp only [] at h
        cases h2 : backfill_fees utxos rest with
        | error e2 =>
          rw [h2] at h
          injection h with h3
          subst h3
          exact ih e2 ihb h2
        | ok r =>
          rw [h2] at h
          simp at h

/-- A successful input sum resolved every one of its outpoints. -/
lemma sum_input_values_ok_all
    (resolve : OutPointM → Except SqliteClientError Int) :
    ∀ (l : List OutPointM) (s : Int),
      sum_input_values resolve l = .ok s →
        ∀ op ∈ l, ∃ v, resolve op = .ok v := by
  intro l
  induction l with
  | nil =>
    intro s _ op hop
    exact absurd hop (List.not_mem_nil op)
  | cons q rest ih =>
    intro s h op hop
    simp only [sum_input_values] at h
    cases h1 : resolve q with
    | error e =>
      rw [h1] at h
      simp at h
    | ok v =>
      rw [h1] at h
      simp only [] at h
      cases h2 : sum_input_values resolve rest with
      | error e =>
        rw [h2] at h
        simp at h
      | ok s2 =>
        rcases List.mem_cons.mp hop with hq | hrest
        · exact ⟨v, hq ▸ h1⟩
        · exact ih s2 h2 op hrest

/-- A successful fee_paid inverts to a successful input sum minus the
output total. -/
lemma fee_paid_ok_inv (resolve : OutPointM → Except SqliteClientError Int)
    (tx : TxParsed) (f : Int) (h : fee_paid resolve tx = .ok f) :
    ∃ s, sum_input_values resolve tx.vin = .ok s ∧
      f = s - tx.vout.foldr (· + ·) 0 := by
  unfold fee_paid at h
  cases h1 : sum_input_values resolve tx.vin with
  | error e =>
    rw [h1] at h
    simp at h
  | ok s =>
    rw [h1] at h
    injection h with h2
    exact ⟨s, rfl, h2.symm⟩

/-- A successful backfill computed a successful fee for every row whose raw
bytes are present. -/
lemma backfill_fees_ok_rows (utxos : List UtxoRow) :
    ∀ (l : List MigTxRow) (l2 : List MigTxRow),
      backfill_fees utxos l = .ok l2 →
        ∀ row ∈ l, ∀ tx, row.raw = some tx →
          ∃ f, fee_paid (find_utxo_value utxos) tx = .ok f := by
  intro l
  induction l with
  | nil =>
    intro l2 _ row hrow
    exact absurd hrow (List.not_mem_nil row)
  | cons q rest ih =>
    intro l2 h row hrow tx hraw
    simp only [backfill_fees] at h
    have hqb : ∃ bh, q.block = some bh := by
      cases hbb : q.block with
      | none =>
        rw [hbb] at h
        simp at h
      | some v => exact ⟨v, rfl⟩
    obtain ⟨bh, hqb⟩ := hqb
    rw [hqb] at h
    simp only [] at h
    cases hq : q.raw with
    | none =>
      rw [hq] at h
      simp only [] at h
      cases h1 : backfill_fees utxos rest with
      | error e =>
        rw [h1] at h
        simp at h
      | ok r =>
        rcases List.mem_cons.mp hrow with hhead | htail
        · rw [hhead] at hraw
          rw [hq] at hraw
          exact absurd hraw (by simp)
        · exact ih r h1 row htail tx hraw
    | some tx0 =>
      rw [hq] at h
      simp only [] at h
      cases h1 : fee_paid (find_utxo_value utxos) tx0 with
      | error e =>
        rw [h1] at h
        simp at h
      | ok f =>
        rw [h1] at h
        simp only [] at h
        cases h2 : backfill_fees utxos rest with
        | error e =>
          rw [h2] at h
          simp at h
        | ok r =>
          rcases List.mem_cons.mp hrow with hhead | htail
          · rw [hhead] at hraw
            rw [hq] at hraw
            injection hraw with h3
            exact ⟨f, h3 ▸ h1⟩
          · exact ih r h2 row htail tx hraw

/-- A successful backfill read a mined height from every row: a NULL block
column would have aborted it. -/
lemma backfill_fees_ok_blocks (utxos : List UtxoRow) :
    ∀ (l : List MigTxRow) (l2 : List MigTxRow),
      backfill_fees utxos l = .ok l2 →
        ∀ row ∈ l, row.block ≠ none := by
  intro l
  induction l with
  | nil =>
    intro l2 _ row hrow
    exact absurd hrow (List.not_mem_nil row)
  | cons q rest ih =>
    intro l2 h row hrow
    simp only [backfill_fees] at h
    have hqb : ∃ bh, q.block = some bh := by
      cases hbb : q.block with
      | none =>
        rw [hbb] at h
        simp at h
      | some v => exact ⟨v, rfl⟩
    obtain ⟨bh, hqb⟩ := hqb
    rw [hqb] at h
    simp only [] at h
    rcases List.mem_cons.mp hrow with hhead | htail
    · rw [hhead, hqb]
      simp
    · cases hq : q.raw with
      | none =>
        rw [hq] at h
        simp only [] at h
        cases h1 : backfill_fees utxos rest with
        | error e =>
          rw [h1] at h
          simp at h
        | ok r => exact ih r h1 row htail
      | some tx0 =>
        rw [hq] at h
        simp only [] at h
        cases h1 : fee_paid (find_utxo_value utxos) tx0 with
        | error e =>
          rw [h1] at h
          simp at h
        | ok f =>
          rw [h1] at h
          simp only [] at h
          cases h2 : backfill_fees utxos rest with
          | error e =>
            rw [h2] at h
            simp at h
          | ok r => exact ih r h2 row htail

/-- Element-wise description of a successful fee backfill: rows without raw
bytes are unchanged; rows with raw bytes get fee set to the resolved input
sum minus the output total. -/
lemma backfill_fees_ok_get (utxos : List UtxoRow) :
    ∀ (l : List MigTxRow) (l2 : List MigTxRow),
      backfill_fees utxos l = .ok l2 →
        l2.length = l.length ∧
        ∀ (i : Nat) (h1 : i < l.length) (h2 : i < l2.length),
          ((l.get ⟨i, h1⟩).raw = none → l2.get ⟨i, h2⟩ = l.get ⟨i, h1⟩) ∧
          (∀ tx, (l.get ⟨i, h1⟩).raw = some tx →
            ∃ s, sum_input_values (find_utxo_value utxos) tx.vin = .ok s ∧
              l2.get ⟨i, h2⟩ =
                { l.get ⟨i, h1⟩ with
                  fee := some (s - tx.vout.foldr (· + ·) 0) }) := by
  intro l
  induction l with
  | nil =>
    intro l2 h
    simp only [backfill_fees] at h
    injection h with h2
    subst h2
    exact ⟨rfl, fun i h1 => absurd h1 (by simp)⟩
  | cons q rest ih =>
    intro l2 h
    simp only [backfill_fees] at h
    have hqb : ∃ bh, q.block = some bh := by
      cases hbb : q.block with
      | none =>
        rw [hbb] at h
        simp at h
      | some v => exact ⟨v, rfl⟩
    obtain ⟨bh, hqb⟩ := hqb
    rw [hqb] at h
    simp only [] at h
    cases hq : q.raw with
    | none =>
      rw [hq] at h
      simp only [] at h
      cases hb : backfill_fees utxos rest with
      | error e =>
        rw [hb] at h
        simp at h
      | ok r =>
        rw [hb] at h
        simp only [] at h
        injection h with h2
        subst h2
        obtain ⟨hlen, helem⟩ := ih r hb
        refine ⟨by simp [hlen], ?_⟩
        intro i h1 h2
        cases i with
        | zero =>
          refine ⟨fun _ => rfl, ?_⟩
          intro tx htx
          rw [show (((q :: rest).get ⟨0, h1⟩)) = q from rfl] at htx
          rw [hq] at htx
          exact absurd htx (by simp)
        | succ n =>
          exact helem n (Nat.lt_of_succ_lt_succ h1) (Nat.lt_of_succ_lt_succ h2)
    | some tx0 =>
      rw [hq] at h
      simp only [] at h
      cases hf : fee_paid (find_utxo_value utxos) tx0 with
      | error e =>
        rw [hf] at h
        simp at h
      | ok f =>
        rw [hf] at h
        simp only [] at h
        cases hb : backfill_fees utxos rest with
        | error e =>
          rw [hb] at h
          simp at h
        | ok r =>
          rw [hb] at h
          simp only [] at h
          injection h with h2
          subst h2
          obtain ⟨hlen, helem⟩ := ih r hb
          refine ⟨by simp [hlen], ?_⟩
          intro i h1 h2
          cases i with
          | zero =>
            constructor
            · intro hnone
              rw [show (((q :: rest).get ⟨0, h1⟩)) = q from rfl] at hnone
              rw [hq] at hnone
              exact absurd hnone (by simp)
            · intro tx htx
              rw [show (((q :: rest).get ⟨0, h1⟩)) = q from rfl] at htx
              rw [hq] at htx
              injection htx with h3
              subst h3
              obtain ⟨s, hs, hfeq⟩ := fee_paid_ok_inv _ tx0 f hf
              refine ⟨s, hs, ?_⟩
              rw [hfeq, ← hq, ← hqb]
              rfl
          | succ n =>
            exact helem n (Nat.lt_of_succ_lt_succ h1) (Nat.lt_of_succ_lt_succ h2)

/-- C6 (amended): the migration backfills fees.  First conjunct: on
success, every transactions row with raw bytes present has its fee set to
the sum of the values of its transparent inputs, each resolved through the
utxos table, minus the sum of its transparent output values, and rows
without raw bytes are unchanged.  Second conjunct: when every transactions
row has a non-NULL block column, a transparent input whose UTXO is absent
from the utxos table makes the migration fail with CorruptedData.  Third
conjunct: the migration reads the block column as a non-nullable u32
before examining raw, so a store containing any row with a NULL block
column always makes the migration fail (with a DbError at that row, or an
earlier error). -/
theorem C6_fee_backfill :
    (∀ (db db2 : MigDb), add_transaction_views_up db = .ok db2 →
      db2.transactions.length = db.transactions.length ∧
      ∀ (i : Nat) (h1 : i < db.transactions.length)
          (h2 : i < db2.transactions.length),
        ((db.transactions.get ⟨i, h1⟩).raw = none →
          db2.transactions.get ⟨i, h2⟩ = db.transactions.get ⟨i, h1⟩) ∧
        (∀ tx, (db.transactions.get ⟨i, h1⟩).raw = some tx →
          ∃ s, sum_input_values (find_utxo_value db.utxos) tx.vin = .ok s ∧
            db2.transactions.get ⟨i, h2⟩ =
              { db.transactions.get ⟨i, h1⟩ with
                fee := some (s - tx.vout.foldr (· + ·) 0) })) ∧
    (∀ db : MigDb,
      (∀ row ∈ db.transactions, row.block ≠ none) →
      (∃ row ∈ db.transactions, ∃ tx, row.raw = some tx ∧
        ∃ op ∈ tx.vin, db.utxos.find?
          (fun u => u.prevout_txid == op.hash && u.prevout_idx == op.n) =
            none) →
      ∃ m, add_transaction_views_up db = .error (.CorruptedData m)) ∧
    (∀ db : MigDb,
      (∃ row ∈ db.transactions, row.block = none) →
      ∃ e, add_transaction_views_up db = .error e) := by
  refine ⟨?_, ?_, ?_⟩
  · intro db db2 h
    obtain ⟨_, _, hb⟩ := add_transaction_views_up_ok db db2 h
    exact backfill_fees_ok_get db.utxos db.transactions db2.transactions hb
  · intro db hblk hbad
    obtain ⟨row, hrow, tx, hraw, op, hop, hfind⟩ := hbad
    have hfe : find_utxo_value db.utxos op =
        .error (.CorruptedData "Unable to find UTXO corresponding to outpoint") := by
      unfold find_utxo_value
      rw [hfind]
    cases hb : backfill_fees db.utxos db.transactions with
    | ok l2 =>
      obtain ⟨f, hf⟩ :=
        backfill_fees_ok_rows db.utxos db.transactions l2 hb row hrow tx hraw
      obtain ⟨s, hsum, _⟩ := fee_paid_ok_inv _ tx f hf
      obtain ⟨v, hv⟩ := sum_input_values_ok_all _ tx.vin s hsum op hop
      rw [hfe] at hv
      exact absurd hv (by simp)
    | error e =>
      obtain ⟨m, hm⟩ :=
        backfill_fees_error_shape db.utxos db.transactions e hblk hb
      refine ⟨m, ?_⟩
      unfold add_transaction_views_up
      rw [hb, hm]
  · intro db hbad
    obtain ⟨row, hrow, hnone⟩ := hbad
    cases hb : backfill_fees db.utxos db.transactions with
    | ok l2 =>
      exact absurd hnone
        (backfill_fees_ok_blocks db.utxos db.transactions l2 hb row hrow)
    | error e =>
      refine ⟨e, ?_⟩
      unfold add_transaction_views_up
      rw [hb]

/-- Counterexample to C6 as stated: c6dbNullBlock holds a transactions row
whose raw bytes are present and whose only transparent input has no row in
the (empty) utxos table, yet the migration does not fail with
CorruptedData — it fails with the column-type DbError raised when the NULL
block column is read, before raw is even examined. -/
theorem C6_counterexample :
    (∃ row ∈ c6dbNullBlock.transactions, ∃ tx, row.raw = some tx ∧
      ∃ op ∈ tx.vin, c6dbNullBlock.utxos.find?
        (fun u => u.prevout_txid == op.hash && u.prevout_idx == op.n) =
          none) ∧
    add_transaction_views_up c6dbNullBlock =
      .error (.DbError "InvalidColumnType: transactions.block is NULL") ∧
    ¬ ∃ m, add_transaction_views_up c6dbNullBlock =
      .error (.CorruptedData m) := by
  have hup : add_transaction_views_up c6dbNullBlock =
      .error (.DbError "InvalidColumnType: transactions.block is NULL") := by
    decide
  refine ⟨?_, hup, ?_⟩
  · exact ⟨⟨0, some ⟨[⟨[9], 0⟩], []⟩, none, none⟩, by decide, ⟨[⟨[9], 0⟩], []⟩,
      rfl, ⟨[9], 0⟩, by decide, by decide⟩
  · rintro ⟨m, hm⟩
    rw [hup] at hm
    simp at hm

/-- Witness: C6 applied at concrete inputs, discharging each hypothesis:
the migration on the S5 store succeeds with fee 300,000,000 and the
success part of C6 applies to it; the all-mined missing-UTXO store fails
with CorruptedData; the NULL-block store fails. -/
theorem C6_witness :
    add_transaction_views_up c6db = .ok c6dbAfter ∧
    c6dbAfter.transactions.map (fun t => t.fee) = [some 300000000] ∧
    c6dbAfter.transactions.length = c6db.transactions.length ∧
    (∃ m, add_transaction_views_up c6dbMissing =
      .error (.CorruptedData m)) ∧
    (∃ e, add_transaction_views_up c6dbNullBlock = .error e) := by
  have hup : add_transaction_views_up c6db = .ok c6dbAfter := by decide
  refine ⟨hup, by decide, ?_, ?_, ?_⟩
  · exact (C6_fee_backfill.1 c6db c6dbAfter hup).1
  · exact C6_fee_backfill.2.1 c6dbMissing (by decide) (by decide)
  · exact C6_fee_backfill.2.2 c6dbNullBlock (by decide)

/-! ### Claim C8 -/

/-- insert_block leaves received_notes untouched. -/
lemma insert_block_rn (db : WalletDb) (bh : Nat) (hs : List Nat) (bt : Nat)
    (tr : List Nat) (y : Unit × WalletDb)
    (h : insert_block db bh hs bt tr = .ok y) :
    y.2.received_notes = db.received_notes := by
  unfold insert_block at h
  split at h
  · simp at h
  · injection h with h2
    subst h2
    rfl

/-- put_tx_meta leaves received_notes untouched. -/
lemma put_tx_meta_rn (db : WalletDb) (txid : List Nat) (i : Int) (ht : Nat)
    (y : Int × WalletDb) (h : put_tx_meta db txid i ht = .ok y) :
    y.2.received_notes = db.received_notes := by
  unfold put_tx_meta at h
  split at h
  · injection h with h2
    subst h2
    rfl
  · split at h
    · injection h with h2
      subst h2
      rfl
    · simp at h

/-- put_tx_data leaves received_notes untouched. -/
lemma put_tx_data_rn (db : WalletDb) (tx : TransactionM) (c : Option Int)
    (y : Int × WalletDb) (h : put_tx_data db tx c = .ok y) :
    y.2.received_notes = db.received_notes := by
  unfold put_tx_data at h
  split at h
  · injection h with h2
    subst h2
    rfl
  · split at h
    · injection h with h2
      subst h2
      rfl
    · simp at h

/-- insert_witness leaves received_notes untouched. -/
lemma insert_witness_rn (db : WalletDb) (n : Int) (w : List Nat) (ht : Nat)
    (y : Unit × WalletDb) (h : insert_witness db n w ht = .ok y) :
    y.2.received_notes = db.received_notes := by
  unfold insert_witness at h
  split at h
  · simp at h
  · injection h with h2
    subst h2
    rfl

/-- prune_witnesses leaves received_notes untouched. -/
lemma prune_witnesses_rn (db : WalletDb) (bh : Nat) (y : Unit × WalletDb)
    (h : prune_witnesses db bh = .ok y) :
    y.2.received_notes = db.received_notes := by
  unfold prune_witnesses at h
  injection h with h2
  subst h2
  rfl

/-- insert_sent_note leaves received_notes untouched. -/
lemma insert_sent_note_rn (db : WalletDb) (t : Int) (oi : Nat) (a : Nat)
    (addr : List Nat) (v : Int) (m : Option (List Nat)) (y : Unit × WalletDb)
    (h : insert_sent_note db t oi a addr v m = .ok y) :
    y.2.received_notes = db.received_notes := by
  unfold insert_sent_note at h
  split at h
  · simp at h
  · injection h with h2
    subst h2
    rfl

/-- put_sent_note leaves received_notes untouched. -/
lemma put_sent_note_rn (db : WalletDb) (o : DecryptedOutputM) (t : Int)
    (y : Unit × WalletDb) (h : put_sent_note db o t = .ok y) :
    y.2.received_notes = db.received_notes := by
  unfold put_sent_note at h
  split at h
  · split at h
    · exact insert_sent_note_rn db t o.index o.account o.to_address
        (o.note_value : Int) (some o.memo) y h
    · simp at h
  · injection h with h2
    subst h2
    rfl

/-- mark_spent keeps an empty received_notes table empty. -/
lemma mark_spent_nil (db : WalletDb) (t : Int) (nf : List Nat)
    (y : Unit × WalletDb) (hnil : db.received_notes = [])
    (h : mark_spent db t nf = .ok y) : y.2.received_notes = [] := by
  unfold mark_spent at h
  injection h with h2
  subst h2
  simp [hnil]

/-- update_expired_notes keeps an empty received_notes table empty. -/
lemma update_expired_notes_nil (db : WalletDb) (ht : Nat)
    (y : Unit × WalletDb) (hnil : db.received_notes = [])
    (h : update_expired_notes db ht = .ok y) : y.2.received_notes = [] := by
  unfold update_expired_notes at h
  injection h with h2
  subst h2
  simp [hnil]

/-- put_received_note keeps an empty received_notes table empty (it inserts
nothing). -/
lemma put_received_note_nil (db : WalletDb) (o : ShieldedOutputData) (t : Int)
    (y : NoteId × WalletDb) (hnil : db.received_notes = [])
    (h : put_received_note db o t = .ok y) : y.2.received_notes = [] := by
  rw [put_received_note_empty db o t hnil] at h
  injection h with h2
  subst h2
  exact hnil

/-- The mark_spent loop keeps an empty received_notes table empty. -/
lemma mark_spent_loop_nil :
    ∀ (l : List (List Nat)) (db : WalletDb) (t : Int) (y : Unit × WalletDb),
      db.received_notes = [] → mark_spent_loop db t l = .ok y →
        y.2.received_notes = [] := by
  intro l
  induction l with
  | nil =>
    intro db t y hnil h
    simp only [mark_spent_loop] at h
    injection h with h2
    subst h2
    exact hnil
  | cons nf rest ih =>
    intro db t y hnil h
    simp only [mark_spent_loop, mark_spent] at h
    exact ih _ t y (by simp [hnil]) h

/-- The output loop of advance_by_block keeps an empty received_notes table
empty. -/
lemma put_outputs_loop_nil :
    ∀ (l : List WalletShieldedOutputM) (db : WalletDb) (t : Int)
      (nw : List (NoteId × List Nat)) (y : List (NoteId × List Nat) × WalletDb),
      db.received_notes = [] → put_outputs_loop db t nw l = .ok y →
        y.2.received_notes = [] := by
  intro l
  induction l with
  | nil =>
    intro db t nw y hnil h
    simp only [put_outputs_loop] at h
    injection h with h2
    subst h2
    exact hnil
  | cons o rest ih =>
    intro db t nw y hnil h
    simp only [put_outputs_loop] at h
    rw [put_received_note_empty db o.toShielded t hnil] at h
    simp only [] at h
    exact ih db t _ y hnil h

/-- The transaction loop of advance_by_block keeps an empty received_notes
table empty. -/
lemma scan_txs_loop_nil :
    ∀ (l : List WalletTxM) (db : WalletDb) (ht : Nat)
      (nw : List (NoteId × List Nat)) (y : List (NoteId × List Nat) × WalletDb),
      db.received_notes = [] → scan_txs_loop db ht nw l = .ok y →
        y.2.received_notes = [] := by
  intro l
  induction l with
  | nil =>
    intro db ht nw y hnil h
    simp only [scan_txs_loop] at h
    injection h with h2
    subst h2
    exact hnil
  | cons tx rest ih =>
    intro db ht nw y hnil h
    simp only [scan_txs_loop] at h
    cases h1 : put_tx_meta db tx.txid tx.index ht with
    | error e =>
      rw [h1] at h
      simp at h
    | ok r1 =>
      rw [h1] at h
      simp only [] at h
      have hn1 : r1.2.received_notes = [] := by
        rw [put_tx_meta_rn db tx.txid tx.index ht r1 h1]
        exact hnil
      cases h2 : mark_spent_loop r1.2 r1.1 tx.shielded_spends with
      | error e =>
        rw [h2] at h
        simp at h
      | ok r2 =>
        rw [h2] at h
        simp only [] at h
        have hn2 : r2.2.received_notes = [] :=
          mark_spent_loop_nil tx.shielded_spends r1.2 r1.1 r2 hn1 h2
        cases h3 : put_outputs_loop r2.2 r1.1 nw tx.shielded_outputs with
        | error e =>
          rw [h3] at h
          simp at h
        | ok r3 =>
          rw [h3] at h
          simp only [] at h
          have hn3 : r3.2.received_notes = [] :=
            put_outputs_loop_nil tx.shielded_outputs r2.2 r1.1 nw r3 hn2 h3
          exact ih r3.2 ht r3.1 y hn3 h

/-- The witness loop leaves received_notes untouched. -/
lemma insert_witnesses_loop_rn :
    ∀ (l : List (NoteId × List Nat)) (db : WalletDb) (ht : Nat)
      (y : Unit × WalletDb),
      insert_witnesses_loop db ht l = .ok y →
        y.2.received_notes = db.received_notes := by
  intro l
  induction l with
  | nil =>
    intro db ht y h
    simp only [insert_witnesses_loop] at h
    injection h with h2
    subst h2
    rfl
  | cons q rest ih =>
    intro db ht y h
    cases q with
    | mk nid w =>
      cases nid with
      | SentNoteId i => simp [insert_witnesses_loop] at h
      | ReceivedNoteId i =>
        simp only [insert_witnesses_loop] at h
        cases h1 : insert_witness db i w ht with
        | error e =>
          rw [h1] at h
          simp at h
        | ok y2 =>
          rw [h1] at h
          simp only [] at h
          rw [ih y2.2 ht y h]
          exact insert_witness_rn db i w ht y2 h1

/-- The advance_by_block body keeps an empty received_notes table empty. -/
lemma advance_body_nil (db : WalletDb) (b : PrunedBlockM)
    (uw : List (NoteId × List Nat)) (y : List (NoteId × List Nat) × WalletDb)
    (hnil : db.received_notes = [])
    (h : advance_by_block_body db b uw = .ok y) : y.2.received_notes = [] := by
  unfold advance_by_block_body at h
  cases h1 : insert_block db b.block_height b.block_hash b.block_time
      b.commitment_tree with
  | error e =>
    rw [h1] at h
    simp at h
  | ok r1 =>
    rw [h1] at h
    simp only [] at h
    have hn1 : r1.2.received_notes = [] := by
      rw [insert_block_rn db b.block_height b.block_hash b.block_time
        b.commitment_tree r1 h1]
      exact hnil
    cases h2 : scan_txs_loop r1.2 b.block_height [] b.transactions with
    | error e =>
      rw [h2] at h
      simp at h
    | ok r2 =>
      rw [h2] at h
      simp only [] at h
      have hn2 : r2.2.received_notes = [] :=
        scan_txs_loop_nil b.transactions r1.2 b.block_height [] r2 hn1 h2
      cases h3 : insert_witnesses_loop r2.2 b.block_height (uw ++ r2.1) with
      | error e =>
        rw [h3] at h
        simp at h
      | ok r3 =>
        rw [h3] at h
        simp only [] at h
        have hn3 : r3.2.received_notes = [] := by
          rw [insert_witnesses_loop_rn (uw ++ r2.1) r2.2 b.block_height r3 h3]
          exact hn2
        cases h4 : prune_witnesses r3.2
            (if b.block_height < 100 then 0 else b.block_height - 100) with
        | error e =>
          rw [h4] at h
          simp at h
        | ok r4 =>
          rw [h4] at h
          simp only [] at h
          have hn4 : r4.2.received_notes = [] := by
            rw [prune_witnesses_rn r3.2 _ r4 h4]
            exact hn3
          cases h5 : update_expired_notes r4.2 b.block_height with
          | error e =>
            rw [h5] at h
            simp at h
          | ok r5 =>
            rw [h5] at h
            simp only [] at h
            injection h with h6
            subst h6
            exact update_expired_notes_nil r4.2 b.block_height r5 hn4 h5

/-- advance_by_block keeps an empty received_notes table empty (also on
rollback). -/
lemma advance_by_block_nil (db : WalletDb) (b : PrunedBlockM)
    (uw : List (NoteId × List Nat)) (hnil : db.received_notes = []) :
    (advance_by_block db b uw).2.received_notes = [] := by
  cases hbody : advance_by_block_body db b uw with
  | error e =>
    have ht : advance_by_block db b uw = (.error e, db) :=
      transactionally_error db _ e hbody
    rw [ht]
    exact hnil
  | ok x =>
    have ht : advance_by_block db b uw = (.ok x.1, x.2) :=
      transactionally_ok db _ x hbody
    rw [ht]
    exact advance_body_nil db b uw x hnil hbody

/-- The store_received_tx output loop keeps an empty received_notes table
empty. -/
lemma store_outputs_loop_nil :
    ∀ (l : List DecryptedOutputM) (db : WalletDb) (t : Int)
      (y : Unit × WalletDb),
      db.received_notes = [] → store_outputs_loop db t l = .ok y →
        y.2.received_notes = [] := by
  intro l
  induction l with
  | nil =>
    intro db t y hnil h
    simp only [store_outputs_loop] at h
    injection h with h2
    subst h2
    exact hnil
  | cons o rest ih =>
    intro db t y hnil h
    simp only [store_outputs_loop] at h
    split at h
    · cases h1 : put_sent_note db o t with
      | error e =>
        rw [h1] at h
        simp at h
      | ok y2 =>
        rw [h1] at h
        simp only [] at h
        have : y2.2.received_notes = [] := by
          rw [put_sent_note_rn db o t y2 h1]
          exact hnil
        exact ih y2.2 t y this h
    · cases h1 : put_received_note db o.toShielded t with
      | error e =>
        rw [h1] at h
        simp at h
      | ok y2 =>
        rw [h1] at h
        simp only [] at h
        exact ih y2.2 t y
          (put_received_note_nil db o.toShielded t y2 hnil h1) h

/-- A transaction whose body keeps received_notes empty yields a state with
received_notes empty, whether it commits or rolls back. -/
lemma transactionally_rn_nil {a : Type} (db : WalletDb)
    (body : WalletDb → Except SqliteClientError (a × WalletDb))
    (hnil : db.received_notes = [])
    (hbody : ∀ y, body db = .ok y → y.2.received_notes = []) :
    (transactionally db body).2.received_notes = [] := by
  cases h : body db with
  | error e =>
    rw [transactionally_error db body e h]
    exact hnil
  | ok p =>
    rw [transactionally_ok db body p h]
    exact hbody p h

/-- store_received_tx keeps an empty received_notes table empty. -/
lemma store_received_tx_nil (db : WalletDb) (tx : TransactionM)
    (outs : List DecryptedOutputM) (hnil : db.received_notes = []) :
    (store_received_tx db tx outs).2.received_notes = [] := by
  unfold store_received_tx
  apply transactionally_rn_nil db _ hnil
  intro y hy
  simp only [] at hy
  cases h1 : put_tx_data db tx none with
  | error e =>
    rw [h1] at hy
    simp at hy
  | ok r1 =>
    rw [h1] at hy
    simp only [] at hy
    have hn1 : r1.2.received_notes = [] := by
      rw [put_tx_data_rn db tx none r1 h1]
      exact hnil
    cases h2 : store_outputs_loop r1.2 r1.1 outs with
    | error e =>
      rw [h2] at hy
      simp at hy
    | ok r2 =>
      rw [h2] at hy
      injection hy with h3
      subst h3
      exact store_outputs_loop_nil outs r1.2 r1.1 r2 hn1 h2

/-- store_sent_tx keeps an empty received_notes table empty. -/
lemma store_sent_tx_nil (db : WalletDb) (st : SentTransactionM)
    (hnil : db.received_notes = []) :
    (store_sent_tx db st).2.received_notes = [] := by
  unfold store_sent_tx
  apply transactionally_rn_nil db _ hnil
  intro y hy
  simp only [] at hy
  cases h1 : put_tx_data db st.tx (some st.created) with
  | error e =>
    rw [h1] at hy
    simp at hy
  | ok r1 =>
    rw [h1] at hy
    simp only [] at hy
    have hn1 : r1.2.received_notes = [] := by
      rw [put_tx_data_rn db st.tx (some st.created) r1 h1]
      exact hnil
    cases h2 : mark_spent_loop r1.2 r1.1 st.tx.shielded_spends with
    | error e =>
      rw [h2] at hy
      simp at hy
    | ok r2 =>
      rw [h2] at hy
      simp only [] at hy
      have hn2 : r2.2.received_notes = [] :=
        mark_spent_loop_nil st.tx.shielded_spends r1.2 r1.1 r2 hn1 h2
      cases h3 : insert_sent_note r2.2 r1.1 st.output_index st.account
          st.recipient_address st.value st.memo with
      | error e =>
        rw [h3] at hy
        simp at hy
      | ok r3 =>
        rw [h3] at hy
        injection hy with h4
        subst h4
        rw [insert_sent_note_rn r2.2 r1.1 st.output_index st.account
          st.recipient_address st.value st.memo r3 h3]
        exact hn2

/-- rewind_to_height keeps an empty received_notes table empty. -/
lemma rewind_to_height_nil (db : WalletDb) (h : Nat)
    (hnil : db.received_notes = []) :
    (rewind_to_height db h).2.received_notes = [] := by
  unfold rewind_to_height
  cases hE : wallet_block_height_extrema db with
  | none =>
    simp only [hE]
    exact hnil
  | some p =>
    obtain ⟨mn, mx⟩ := p
    simp only [hE]
    split
    · exact hnil
    · simp [hnil]

/-- Every state reachable from the initialized empty store has an empty
received_notes table: put_received_note never executes an INSERT, and no
other write operation adds received-note rows. -/
lemma Reachable_received_notes_nil : ∀ s, Reachable s →
    s.received_notes = [] := by
  intro s h
  induction h with
  | init => rfl
  | advance s b uw _ ih => exact advance_by_block_nil s b uw ih
  | recv s tx outs _ ih => exact store_received_tx_nil s tx outs ih
  | sent s st _ ih => exact store_sent_tx_nil s st ih
  | rewind s hh _ ih => exact rewind_to_height_nil s hh ih

/-- C8: nullifier uniqueness is an invariant of every wallet state
reachable from the initialized empty store by the public write operations
(advance_by_block, store_received_tx, store_sent_tx, rewind_to_height): no
two received_notes rows share an nf value.  The invariant is in fact
maintained trivially — the received_notes table stays empty, because
put_received_note never inserts (the miss branch repeats its UPDATE, see
C1), so no write operation ever adds a received-note row. -/
theorem C8_nullifier_uniqueness_invariant :
    ∀ s, Reachable s →
      List.Pairwise (fun a b => a.nf ≠ b.nf) s.received_notes := by
  intro s h
  rw [Reachable_received_notes_nil s h]
  exact List.Pairwise.nil

/-- Witness: C8 applied at the initialized empty store, discharging the
reachability hypothesis with the init step. -/
theorem C8_witness :
    List.Pairwise (fun a b => a.nf ≠ b.nf) initWalletDb.received_notes :=
  C8_nullifier_uniqueness_invariant initWalletDb Reachable.init

end LibRustZcash
